import Mathlib

set_option linter.unusedVariables false

/-!
Verification development for the `restream` package of datarhei-core
(`src/restream/restream.go`): a shallow embedding of the supervisor's data
model and operations, with theorems checking the natural-language
specification against the code.

Conventions of the embedding:
* Go strings are Lean `String`s; the string manipulation primitives used by
  the source (`strings.Split`, `strings.HasPrefix`, `strings.TrimPrefix`,
  `strings.TrimSpace`, `strings.Contains`, `strings.Join`) are implemented
  below over `List Char` by structural recursion so that all definitions
  reduce inside the kernel.
* Go maps (`r.tasks`, cleanup registries, the idmap of `GetProcessIDs`) are
  association lists with unique keys; `delete` removes every entry with the
  key, iteration is a fold over the entries (the stops performed by a tick
  commute, so a fixed iteration order is faithful).
* Collaborators that live outside `src/` (the `net/url`, `glob`, `ffmpeg`
  packages, `filepath.Abs`, the third-party semver parser) are an abstract
  environment `Env`; theorems quantify over it and witnesses instantiate it.
* The `Replacer` collaborator (placeholder substitution) is modelled as the
  identity substitution: no claim under scrutiny concerns placeholders, and
  `resolvePlaceholders` never touches the fields the claims are about.
* Engine process handles (`process.Process`, outside `src/`) are modelled by
  the order they report via `Status()`: `Start()` sets it to `"start"`,
  `Stop(true)` / the stop path set it to `"stop"`.
* `int64` counters (`nProc`, `maxProc`, filesystem sizes) are `Int`.
-/

namespace Restream

/-- Boolean test that the first character list is a prefix of the second
(`strings.HasPrefix`). -/
def hasPfx : List Char → List Char → Bool
  | [], _ => true
  | _ :: _, [] => false
  | p :: ps, c :: cs => p == c && hasPfx ps cs

/-- Drop a leading prefix when present, otherwise return the list unchanged
(`strings.TrimPrefix`). -/
def dropPfx (p s : List Char) : List Char :=
  if hasPfx p s then s.drop p.length else s

/-- Split a character list at every occurrence of the separator character
(`strings.Split` with a one-character separator): `""` splits to `[""]`. -/
def chSplit (sep : Char) : List Char → List (List Char)
  | [] => [[]]
  | c :: cs =>
    let r := chSplit sep cs
    if c == sep then [] :: r
    else
      match r with
      | [] => [[c]]
      | h :: t => (c :: h) :: t

/-- Join character lists with a separator character (`strings.Join`). -/
def chJoin (sep : Char) : List (List Char) → List Char
  | [] => []
  | [x] => x
  | x :: xs => x ++ sep :: chJoin sep xs

/-- String wrapper for `hasPfx` (`strings.HasPrefix`). -/
def sHasPfx (p s : String) : Bool := hasPfx p.data s.data

/-- String wrapper for `dropPfx` (`strings.TrimPrefix`). -/
def sDropPfx (p s : String) : String := ⟨dropPfx p.data s.data⟩

/-- Whether the string contains the given character (`strings.Contains` with
a one-character needle). -/
def sContains (c : Char) (s : String) : Bool := s.data.contains c

/-- String wrapper for `chSplit` (`strings.Split`). -/
def sSplit (sep : Char) (s : String) : List String :=
  (chSplit sep s.data).map (fun l => ⟨l⟩)

/-- String wrapper for `chJoin` (`strings.Join`). -/
def sJoin (sep : Char) (l : List String) : String :=
  ⟨chJoin sep (l.map String.data)⟩

/-- Trim leading and trailing whitespace (`strings.TrimSpace`). -/
def trimS (s : String) : String :=
  ⟨((s.data.dropWhile Char.isWhitespace).reverse.dropWhile Char.isWhitespace).reverse⟩

/-- Break a character list at the first occurrence of the separator,
returning the parts before and after it, or `none` when absent. -/
def breakAt (sep : Char) : List Char → Option (List Char × List Char)
  | [] => none
  | c :: cs =>
    if c == sep then some ([], cs)
    else
      match breakAt sep cs with
      | none => none
      | some (a, b) => some (c :: a, b)

/-- Leading bracketed tee-options group of an address element: the regex
`^\[[^\]]*\]` of `validateOutputAddress`. Returns the matched group
(brackets included) and the remainder; when the element does not start with
`[` or has no closing `]`, the match is empty and the element is returned
whole (`FindString` returns `""` and `ReplaceAllString` removes nothing). -/
def teeOpts (s : List Char) : List Char × List Char :=
  match s with
  | '[' :: rest =>
    match breakAt ']' rest with
    | none => ([], s)
    | some (a, b) => ('[' :: (a ++ [']']), b)
  | _ => ([], s)

/-- Marker of a cross-process reference, the literal `:output=` of the regex
`^#(.+):output=(.+)` in `resolveAddress`. -/
def refMarker : List Char := [':', 'o', 'u', 't', 'p', 'u', 't', '=']

/-- Rightmost split of a character list around `refMarker` whose right part
is non-empty; the left part may be empty. Preferring the rightmost split
models the greedy first capture group of `^#(.+):output=(.+)`. -/
def maxSplit : List Char → Option (List Char × List Char)
  | [] => none
  | c :: cs =>
    match maxSplit cs with
    | some (a, b) => some (c :: a, b)
    | none =>
      if hasPfx refMarker (c :: cs) then
        let b := (c :: cs).drop refMarker.length
        if b.isEmpty then none else some ([], b)
      else none

/-- Capture groups of `^#(.+):output=(.+)` applied to the part of the
address after the leading `#`: both groups must be non-empty and the first
is greedy (rightmost admissible occurrence of `:output=`). -/
def refSplitCh (s : List Char) : Option (List Char × List Char) :=
  match s with
  | [] => none
  | c :: cs =>
    match maxSplit cs with
    | some (a, b) => some (c :: a, b)
    | none => none

/-- One IO entry of a process config (`app.ConfigIO`, modelled from the
spec's data model since `restream/app` is not part of the source under
scrutiny): ID, address, per-IO options, and for outputs the cleanup
patterns. Cleanup rule attributes other than the pattern are dropped; no
claim mentions them. -/
structure ConfigIO where
  id : String
  address : String
  options : List String
  cleanup : List String
  deriving Repr, DecidableEq

/-- A process config (`app.Config`, modelled from the spec's data model
since `restream/app` is not part of the source under scrutiny). Fields not
touched by any claim (reconnect and limit settings) are omitted. -/
structure AppConfig where
  id : String
  reference : String
  ffversion : String
  options : List String
  input : List ConfigIO
  output : List ConfigIO
  autostart : Bool
  deriving Repr, DecidableEq

/-- A catalog entry (`app.Process`): the persisted description of a
supervised process. `CreatedAt`/`UpdatedAt` timestamps are omitted; no
claim mentions them. -/
structure Process where
  id : String
  reference : String
  config : AppConfig
  order : String
  deriving Repr, DecidableEq

/-- The engine process handle (`process.Process`, outside `src/`): modelled
by the order it reports through `Status()`. -/
structure Engine where
  order : String
  deriving Repr, DecidableEq

/-- The in-memory working state of one supervised process (`task` in
`restream.go`). The command vector, parser, logger and metadata map are
omitted; no claim mentions them. -/
structure Task where
  valid : Bool
  id : String
  reference : String
  process : Process
  config : AppConfig
  ffmpeg : Option Engine
  playout : Option (List (String × Nat))
  usesDisk : Bool
  deriving Repr, DecidableEq

/-- Supervisor state (`restream` in `restream.go`): the task registry, the
running-process counter and cap, the engine's playout port pool, the
basedirs of the configured disk filesystems, and the installed cleanup
rules `(task id, pattern)`. Which named filesystem holds each cleanup rule
is abstracted away: every claim observes cleanup rules only through
installation and removal by task id. -/
structure RState where
  tasks : List (String × Task)
  nProc : Int
  maxProc : Int
  ports : List Nat
  diskfs : List String
  cleanup : List (String × String)
  deriving Repr, DecidableEq

/-- Abstract environment for collaborators outside `src/`: the engine
factory's version string and address validators, `net/url` syntax checks,
`filepath.Abs`, `glob.Match` (`none` = pattern error), and the third-party
semver parser (`none` = parse error, otherwise major/minor/patch). All are
modelled from the spec's collaborator contracts. -/
structure Env where
  skillsVersion : String
  parseSemver : String → Option (Nat × Nat × Nat)
  hasScheme : String → Bool
  urlValidate : String → Bool
  ffValidInput : String → Bool
  ffValidOutput : String → Bool
  absPath : String → Option String
  globMatch : String → String → Option Bool

/-- Association-list lookup modelling Go map indexing `m[k]`. -/
def alookup (k : String) : List (String × α) → Option α
  | [] => none
  | p :: rest => if p.1 == k then some p.2 else alookup k rest

/-- Rewrite the value stored under a key, modelling an in-place mutation of
the task a map entry points to. -/
def updateT (k : String) (f : α → α) (l : List (String × α)) : List (String × α) :=
  l.map (fun p => if p.1 == k then (p.1, f p.2) else p)

/-- Remove every entry with the key, modelling Go's `delete(m, k)`. -/
def removeT (k : String) (l : List (String × α)) : List (String × α) :=
  l.filter (fun p => p.1 != k)

/-- The reference-resolution step of `resolveAddress` (restream.go:830):
empty addresses are errors, non-`#` addresses pass through, `#` addresses
must match `^#(.+):output=(.+)`, self references and unknown processes and
unknown output IDs are errors, and a resolved reference yields the first
matching output's address. -/
def resolveAddress (tasks : List (String × Task)) (id address : String) :
    Except String String :=
  if address.length = 0 then .error "empty address"
  else if !sHasPfx "#" address then .ok address
  else
    match refSplitCh (address.data.drop 1) with
    | none => .error ("invalid format (" ++ address ++ ")")
    | some (a, b) =>
      let refid : String := ⟨a⟩
      let outid : String := ⟨b⟩
      if refid == id then .error ("self-reference not possible (" ++ address ++ ")")
      else
        match alookup refid tasks with
        | none => .error ("unknown process '" ++ refid ++ "' (" ++ address ++ ")")
        | some t =>
          match t.config.output.find? (fun o => o.id == outid) with
          | some o => .ok o.address
          | none =>
            .error ("the process '" ++ refid ++ "' has no outputs with the ID '" ++
              outid ++ "' (" ++ address ++ ")")

/-- Resolve the references of every input address in order, stopping at the
first error (`resolveAddresses`, restream.go:814). -/
def resolveInputs (tasks : List (String × Task)) (pid : String) :
    List ConfigIO → Except String (List ConfigIO)
  | [] => .ok []
  | i :: is =>
    match resolveAddress tasks pid i.address with
    | .error e => .error ("reference error for '#" ++ pid ++ ":" ++ i.id ++ "': " ++ e)
    | .ok a =>
      match resolveInputs tasks pid is with
      | .error e => .error e
      | .ok r => .ok ({ i with address := a } :: r)

/-- Config-level wrapper of `resolveInputs` (`resolveAddresses`,
restream.go:814): rewrites the input addresses of the config. -/
def resolveAddresses (tasks : List (String × Task)) (cfg : AppConfig) :
    Except String AppConfig :=
  match resolveInputs tasks cfg.id cfg.input with
  | .error e => .error e
  | .ok l => .ok { cfg with input := l }

/-- Input address validation (`validateInputAddress`, restream.go:729):
URL-syntax check when a scheme is present, then the engine's allow-list;
the address itself is never rewritten. -/
def validateInputAddress (env : Env) (address basedir : String) :
    String × Option String :=
  if env.hasScheme address && !env.urlValidate address then
    (address, some "url not valid")
  else if !env.ffValidInput address then (address, some "address is not allowed")
  else (address, none)

/-- Validate the elements of a tee address: strip the leading bracketed
options group, validate the remainder with the supplied validator, re-apply
the options; any element that is a file makes the tee a file. A failing
element aborts with its error (the caller then reports the original
address). -/
def validateTeeParts (f : String → String → String × Bool × Option String)
    (basedir : String) : List String → Except String (List String × Bool)
  | [] => .ok ([], false)
  | a :: rest =>
    let ob := teeOpts a.data
    let r := f ⟨ob.2⟩ basedir
    match r.2.2 with
    | some e => .error e
    | none =>
      match validateTeeParts f basedir rest with
      | .error e => .error e
      | .ok (l, isFile) => .ok ((⟨ob.1⟩ ++ r.1) :: l, r.2.1 || isFile)

/-- Output address validation (`validateOutputAddress`, restream.go:743),
returning the (possibly rewritten) address, whether it is a file, and an
error. The four cases in order: tee syntax (split on `|`, per-element
bracket stripping, recursion), URL scheme after stripping a leading
`file:`, the stdout alias `-` → `pipe:`, and filesystem paths (absolute,
`/dev/` allowed unconditionally, otherwise contained in `basedir` and
normalised to `file:<abs>` with the file flag set). The Go function
recurses unboundedly and diverges on a malformed element like `"[x"` whose
bracket group never closes; the embedding carries fuel and returns an error
there instead, with the top-level wrapper supplying enough fuel for every
terminating input. -/
def validateOutputAddr (env : Env) :
    Nat → String → String → String × Bool × Option String
  | 0, address, _ => (address, false, some "unterminated tee options group")
  | Nat.succ fuel, address, basedir =>
    if sContains '|' address || sHasPfx "[" address then
      match validateTeeParts (validateOutputAddr env fuel) basedir (sSplit '|' address) with
      | .error e => (address, false, some e)
      | .ok (parts, isFile) => (sJoin '|' parts, isFile, none)
    else
      let address1 := sDropPfx "file:" address
      if env.hasScheme address1 then
        if !env.urlValidate address1 then (address1, false, some "url not valid")
        else if !env.ffValidOutput address1 then
          (address1, false, some "address is not allowed")
        else (address1, false, none)
      else if address1 == "-" then ("pipe:", false, none)
      else
        match env.absPath address1 with
        | none => (address1, false, some "not a valid path")
        | some address2 =>
          if sHasPfx "/dev/" address2 then
            if !env.ffValidOutput ("file:" ++ address2) then
              (address2, false, some "address is not allowed")
            else ("file:" ++ address2, false, none)
          else if !sHasPfx basedir address2 then
            (address2, false, some (address2 ++ " is not inside of " ++ basedir))
          else if !env.ffValidOutput ("file:" ++ address2) then
            (address2, false, some "address is not allowed")
          else ("file:" ++ address2, true, none)

/-- Top-level output address validation with sufficient fuel for every
terminating input (each recursion level of the Go function works on a
strictly shorter element). -/
def validateOutputAddress (env : Env) (address basedir : String) :
    String × Bool × Option String :=
  validateOutputAddr env (address.length + 1) address basedir

/-- Validation of one address against every configured disk basedir in
order (the `for _, fs := range r.fs.diskfs` loops of `validateConfig`,
restream.go:650 and 696), written as recursion over the basedirs. Each
round receives the address value returned by the previous round — also when
that round failed — exactly as the Go code re-assigns `io.Address` on every
iteration. Returns the final address, the accumulated file flag, the number
of failing rounds (`maxFails`), and the last round's error value. -/
def validateAddrMulti (step : String → String → String × Bool × Option String) :
    List String → String → String × Bool × Nat × Option String
  | [], address => (address, false, 0, none)
  | bd :: rest, address =>
    let r := step address bd
    let m := validateAddrMulti step rest r.1
    (m.1, r.2.1 || m.2.1, (if r.2.2.isSome then 1 else 0) + m.2.2.1,
      if rest.isEmpty then r.2.2 else m.2.2.2)

/-- Membership in the set of already-seen IO IDs — the `ids` map of
`validateConfig` (restream.go:629). -/
def listHas (l : List String) (x : String) : Bool :=
  match l with
  | [] => false
  | a :: rest => a == x || listHas rest x

/-- Per-disk round for an input address inside `validateConfig`
(restream.go:653): the (never rewritten) address and the round's error,
with no file flag. -/
def validateInputStep (env : Env) (a bd : String) : String × Bool × Option String :=
  ((validateInputAddress env a bd).1, false, (validateInputAddress env a bd).2)

/-- Input half of `validateConfig` (restream.go:631): trim the IDs and
addresses, reject empty or duplicate IDs and empty addresses, validate each
address against every disk basedir (accepted unless every round fails) or
against `/` when no disk filesystem exists. The validated entries are
written back into the config; `app.Config` is not part of the source under
scrutiny and the write-back is modelled from the spec ("the accepted form
overwrites the original"). -/
def validateConfigInputs (env : Env) (basedirs : List String) (pid : String)
    (seen : List String) : List ConfigIO → Except String (List ConfigIO)
  | [] => .ok []
  | io :: rest =>
    let iid := trimS io.id
    if iid.length = 0 then
      .error ("empty input IDs are not allowed (process '" ++ pid ++ "')")
    else if listHas seen iid then
      .error ("the input ID '" ++ iid ++ "' is already in use for the process `" ++
        pid ++ "`")
    else
      let addr := trimS io.address
      if addr.length = 0 then
        .error ("the address for input '#" ++ pid ++ ":" ++ iid ++ "' must not be empty")
      else if basedirs.length ≠ 0 then
        let m := validateAddrMulti (validateInputStep env) basedirs addr
        if m.2.2.1 = basedirs.length then
          .error ("the address for input '#" ++ pid ++ ":" ++ iid ++ "' (" ++ m.1 ++
            ") is invalid")
        else
          match validateConfigInputs env basedirs pid (iid :: seen) rest with
          | .error e => .error e
          | .ok l => .ok ({ io with id := iid, address := m.1 } :: l)
      else
        let r := validateInputAddress env addr "/"
        match r.2 with
        | some _ =>
          .error ("the address for input '#" ++ pid ++ ":" ++ iid ++ "' (" ++ r.1 ++
            ") is invalid")
        | none =>
          match validateConfigInputs env basedirs pid (iid :: seen) rest with
          | .error e => .error e
          | .ok l => .ok ({ io with id := iid, address := r.1 } :: l)

/-- Output half of `validateConfig` (restream.go:677): like the input half
but with the output validator, additionally accumulating whether any output
produced a file. -/
def validateConfigOutputs (env : Env) (basedirs : List String) (pid : String)
    (seen : List String) : List ConfigIO → Except String (List ConfigIO × Bool)
  | [] => .ok ([], false)
  | io :: rest =>
    let iid := trimS io.id
    if iid.length = 0 then
      .error ("empty output IDs are not allowed (process '" ++ pid ++ "')")
    else if listHas seen iid then
      .error ("the output ID '" ++ iid ++ "' is already in use for the process `" ++
        pid ++ "`")
    else
      let addr := trimS io.address
      if addr.length = 0 then
        .error ("the address for output '#" ++ pid ++ ":" ++ iid ++ "' must not be empty")
      else if basedirs.length ≠ 0 then
        let m := validateAddrMulti (validateOutputAddress env) basedirs addr
        if m.2.2.1 = basedirs.length then
          .error ("the address for output '#" ++ pid ++ ":" ++ iid ++ "' is invalid")
        else
          match validateConfigOutputs env basedirs pid (iid :: seen) rest with
          | .error e => .error e
          | .ok (l, hasFiles) =>
            .ok ({ io with id := iid, address := m.1 } :: l, m.2.1 || hasFiles)
      else
        let r := validateOutputAddress env addr "/"
        match r.2.2 with
        | some _ =>
          .error ("the address for output '#" ++ pid ++ ":" ++ iid ++ "' is invalid")
        | none =>
          match validateConfigOutputs env basedirs pid (iid :: seen) rest with
          | .error e => .error e
          | .ok (l, hasFiles) =>
            .ok ({ io with id := iid, address := r.1 } :: l, r.2.1 || hasFiles)

/-- Structural validation of a config (`validateConfig`, restream.go:622):
at least one input and one output, then the two halves above. Returns the
config with validated IO entries together with `usesDisk` (whether any
output produced a file). -/
def validateConfig (env : Env) (basedirs : List String) (cfg : AppConfig) :
    Except String (AppConfig × Bool) :=
  if cfg.input.length = 0 then
    .error ("at least one input must be defined for the process '" ++ cfg.id ++ "'")
  else
    match validateConfigInputs env basedirs cfg.id [] cfg.input with
    | .error e => .error e
    | .ok ins =>
      if cfg.output.length = 0 then
        .error ("at least one output must be defined for the process '#" ++ cfg.id ++ "'")
      else
        match validateConfigOutputs env basedirs cfg.id [] cfg.output with
        | .error e => .error e
        | .ok (outs, hasFiles) =>
          .ok ({ cfg with input := ins, output := outs }, hasFiles)

/-- Strip a `-playout_httpport` option and everything after it
(`setPlayoutPorts`, restream.go:577: once the flag is seen, every later
option is skipped as well because `skip` is never reset). -/
def filterPlayoutOpt (opts : List String) : List String :=
  opts.takeWhile (fun o => o != "-playout_httpport")

/-- Port allocation over the inputs (`setPlayoutPorts`, restream.go:569):
for every input whose address starts with `avstream:` or `playout:`, filter
its options, draw a port from the pool, append `-playout_httpport <port>`
and record the port under the input's ID. An empty pool is the
`ErrNoPortrangerProvided` case: the input keeps its filtered options and no
port. Returns the rewritten inputs, the recorded ports, and the remaining
pool. -/
def setPlayoutInputs (pool : List Nat) :
    List ConfigIO → List ConfigIO × List (String × Nat) × List Nat
  | [] => ([], [], pool)
  | io :: rest =>
    if sHasPfx "avstream:" io.address || sHasPfx "playout:" io.address then
      let opts := filterPlayoutOpt io.options
      match pool with
      | [] =>
        let r := setPlayoutInputs [] rest
        ({ io with options := opts } :: r.1, r.2.1, r.2.2)
      | p :: pool1 =>
        let r := setPlayoutInputs pool1 rest
        ({ io with options := opts ++ ["-playout_httpport", toString p] } :: r.1,
          (io.id, p) :: r.2.1, r.2.2)
    else
      let r := setPlayoutInputs pool rest
      (io :: r.1, r.2.1, r.2.2)

/-- Release every port a task holds back into the pool and clear the map
(`unsetPlayoutPorts`, restream.go:610); a `none` map means nothing to do. -/
def unsetPlayoutPorts (pool : List Nat) (t : Task) : List Nat × Task :=
  match t.playout with
  | none => (pool, t)
  | some ps => (pool ++ ps.map Prod.snd, { t with playout := none })

/-- Playout port assignment for a task (`setPlayoutPorts`, restream.go:564):
first unset the existing ports, then allocate over the inputs, storing the
fresh (possibly empty) port map. Returns the task and the new pool. -/
def setPlayoutPorts (pool : List Nat) (t : Task) : Task × List Nat :=
  let u := unsetPlayoutPorts pool t
  let t1 := u.2
  let r := setPlayoutInputs u.1 t1.config.input
  ({ t1 with
      playout := some r.2.1,
      config := { t1.config with input := r.1 } }, r.2.2)

/-- FFVersion constraint written by the task builder (`createTask`,
restream.go:448): prepend `^` to the engine's version, and when the
semver parser accepts that caret-prefixed string, reduce it to
`^major.minor.0`. -/
def createFFConstraint (env : Env) : String :=
  let c := "^" ++ env.skillsVersion
  match env.parseSemver c with
  | some (ma, mi, _) => "^" ++ toString ma ++ "." ++ toString mi ++ ".0"
  | none => c

/-- Base version string computed by `load` (restream.go:278): the engine's
version with the patch level dropped when the semver parser accepts it. -/
def loadBaseVersion (env : Env) : String :=
  match env.parseSemver env.skillsVersion with
  | some (ma, mi, _) => toString ma ++ "." ++ toString mi ++ ".0"
  | none => env.skillsVersion

/-- Per-process FFVersion defaulting on load (restream.go:284): only an
empty stored FFVersion is replaced by the caret-prefixed engine version. -/
def loadConfigFFVersion (env : Env) (cfg : AppConfig) : AppConfig :=
  if cfg.ffversion.length = 0 then
    { cfg with ffversion := "^" ++ loadBaseVersion env }
  else cfg

/-- The task builder (`createTask`, restream.go:441): reject configs whose
trimmed ID is empty, overwrite FFVersion from the engine version, derive
the catalog entry with `Order` from `Autostart`, resolve references against
the current registry, validate the config, and allocate playout ports.
`resolvePlaceholders` (the Replacer collaborator) is modelled as the
identity substitution and the engine handle construction (which the model
cannot fail) yields a fresh handle reporting order `"stop"`; the command
vector and parser are not modelled. Returns the task and the updated port
pool. -/
def createTask (env : Env) (s : RState) (cfg : AppConfig) :
    Except String (Task × List Nat) :=
  if (trimS cfg.id).length = 0 then .error "an empty ID is not allowed"
  else
    let cfg1 := { cfg with ffversion := createFFConstraint env }
    let proc : Process :=
      { id := cfg1.id, reference := cfg1.reference, config := cfg1,
        order := if cfg1.autostart then "start" else "stop" }
    match resolveAddresses s.tasks proc.config with
    | .error e => .error e
    | .ok cfg2 =>
      match validateConfig env s.diskfs cfg2 with
      | .error e => .error e
      | .ok (cfg3, usesDisk) =>
        let t0 : Task :=
          { valid := false, id := cfg1.id, reference := proc.reference,
            process := proc, config := cfg3, ffmpeg := none,
            playout := none, usesDisk := usesDisk }
        let r := setPlayoutPorts s.ports t0
        .ok ({ r.1 with ffmpeg := some { order := "stop" }, valid := true }, r.2)

/-- Install the cleanup rules of a config for a task id (`setCleanup`,
restream.go:517). The routing of each pattern to the named filesystem is
abstracted away (every claim observes cleanup rules only through their
presence for a task id): every cleanup pattern of every output is recorded
against the id. -/
def setCleanup (s : RState) (id : String) (cfg : AppConfig) : RState :=
  { s with cleanup :=
      s.cleanup ++ (cfg.output.flatMap (fun o => o.cleanup.map (fun pat => (id, pat)))) }

/-- Remove every cleanup rule of a task id from every filesystem
(`unsetCleanup`, restream.go:558). -/
def unsetCleanup (s : RState) (id : String) : RState :=
  { s with cleanup := s.cleanup.filter (fun c => c.1 != id) }

/-- Error value `ErrUnknownProcess` (restream.go:403). -/
def errUnknownProcess : String := "unknown process"

/-- Error value `ErrProcessExists` (restream.go:404). -/
def errProcessExists : String := "process already exists"

/-- The per-process start path (`startProcess`, restream.go:1039): unknown
id and invalid task are errors; a task already ordered to start whose
engine also reports start is a no-op returning no error; with a positive
cap an exhausted cap is an error; otherwise the order becomes `"start"`,
the engine is started and `nProc` is incremented. The Go code dereferences
the engine handle unconditionally here; a valid task always carries one, so
the `none` branch (a panic in Go) is modelled as an error. -/
def startProcess (s : RState) (id : String) : RState × Option String :=
  match alookup id s.tasks with
  | none => (s, some errUnknownProcess)
  | some t =>
    if !t.valid then (s, some "invalid process definition")
    else
      match t.ffmpeg with
      | none => (s, some "nil engine handle")
      | some eng =>
        if t.process.order == "start" && eng.order == "start" then (s, none)
        else if 0 < s.maxProc && s.maxProc ≤ s.nProc then
          (s, some "max. number of running processes reached")
        else
          ({ s with
              tasks := updateT id
                (fun x => { x with
                  process := { x.process with order := "start" },
                  ffmpeg := some { order := "start" } }) s.tasks,
              nProc := s.nProc + 1 }, none)

/-- The per-process stop path (`stopProcess`, restream.go:1082): unknown id
is an error; a nil engine handle is a silent no-op; a task already ordered
to stop whose engine also reports stop is a no-op; otherwise the order
becomes `"stop"`, the engine is stopped with wait and `nProc` is
decremented. -/
def stopProcess (s : RState) (id : String) : RState × Option String :=
  match alookup id s.tasks with
  | none => (s, some errUnknownProcess)
  | some t =>
    match t.ffmpeg with
    | none => (s, none)
    | some eng =>
      if t.process.order == "stop" && eng.order == "stop" then (s, none)
      else
        ({ s with
            tasks := updateT id
              (fun x => { x with
                process := { x.process with order := "stop" },
                ffmpeg := some { order := "stop" } }) s.tasks,
            nProc := s.nProc - 1 }, none)

/-- The registration half of `AddProcess` (restream.go:423): insert the
task and install its cleanup rules. -/
def addInserted (s : RState) (t : Task) : RState :=
  setCleanup { s with tasks := (t.id, t) :: s.tasks } t.id t.config

/-- Adding a process (`AddProcess`, restream.go:406): build the task (the
port pool side effects of the builder persist even on the later duplicate
error, as in the source), fail with `ErrProcessExists` when the task's id —
the raw, untrimmed config ID — is already registered, insert the task and
its cleanup rules, and when the order is `"start"` invoke the internal
start, deleting the task again when that fails. `save` has no observable
effect in the model. -/
def AddProcess (env : Env) (s : RState) (cfg : AppConfig) : RState × Option String :=
  match createTask env s cfg with
  | .error e => (s, some e)
  | .ok (t, pool) =>
    let s1 := { s with ports := pool }
    match alookup t.id s1.tasks with
    | some _ => (s1, some errProcessExists)
    | none =>
      let s2 := addInserted s1 t
      if t.process.order == "start" then
        match startProcess s2 t.id with
        | (s3, some e) => ({ s3 with tasks := removeT t.id s3.tasks }, some e)
        | (s3, none) => (s3, none)
      else (s2, none)

/-- Deleting a process (`deleteProcess`, restream.go:1007): unknown id is
an error; a task whose order is not `"stop"` is refused as still running,
leaving everything unchanged; otherwise the task's playout ports return to
the pool, its cleanup rules are removed from every filesystem, and the task
leaves the registry. -/
def deleteProcess (s : RState) (id : String) : RState × Option String :=
  match alookup id s.tasks with
  | none => (s, some errUnknownProcess)
  | some t =>
    if t.process.order != "stop" then
      (s, some ("the process with the ID '" ++ id ++ "' is still running"))
    else
      let u := unsetPlayoutPorts s.ports t
      let s1 := unsetCleanup { s with ports := u.1 } id
      ({ s1 with tasks := removeT id s1.tasks }, none)

/-- Filter applied by the observer to each task (`observe`,
restream.go:248): only valid tasks that use disk and are ordered to start
are stopped; the others are skipped by `continue`. -/
def obStopCond (t : Task) : Bool :=
  t.valid && t.usesDisk && t.process.order == "start"

/-- One iteration of the observer's loop body over one registry entry. -/
def obStep (acc : RState) (p : String × Task) : RState :=
  if obStopCond p.2 then (stopProcess acc p.1).1 else acc

/-- One observer tick on a disk filesystem (`observe`, restream.go:229):
when the reported limit is positive and the reported size reaches it, every
task that is valid, uses disk and is ordered to start is stopped through
`stopProcess`; the other tasks are skipped. -/
def observeTick (s : RState) (size limit : Int) : RState :=
  if 0 < limit ∧ limit ≤ size then s.tasks.foldl obStep s else s

/-- Engine stop applied to a task by the supervisor's `Stop`
(restream.go:210): the engine, when present, is stopped with wait; nothing
else of the task — in particular `process.Order` — changes. -/
def stopEngineTask (t : Task) : Task :=
  { t with ffmpeg := t.ffmpeg.map (fun e => { e with order := "stop" }) }

/-- The supervisor-level `Stop` (restream.go:202): for every task stop the
engine with wait without touching the order, and uninstall the task's
cleanup rules. The per-entry effects commute, so the loop is written as a
map over the registry and a filter of the cleanup rules; cancelling the
observer and stopping the filesystem workers have no further observable
effect on the modelled state. -/
def stopRestream (s : RState) : RState :=
  { s with
    tasks := s.tasks.map (fun p => (p.1, stopEngineTask p.2)),
    cleanup := s.cleanup.filter (fun c => (alookup c.1 s.tasks).isNone) }

/-- ID-pattern pass of `GetProcessIDs` (restream.go:933): the registry keys
matching the glob pattern, or `none` as soon as the matcher reports a
pattern error. -/
def matchIds (env : Env) (pat : String) :
    List (String × Task) → Option (List String)
  | [] => some []
  | p :: rest =>
    match env.globMatch pat p.1 with
    | none => none
    | some b =>
      match matchIds env pat rest with
      | none => none
      | some l => some (if b then p.1 :: l else l)

/-- Reference-pattern pass of `GetProcessIDs` (restream.go:950): the task
ids of tasks whose reference matches the glob pattern, or `none` on a
pattern error. -/
def matchRefs (env : Env) (pat : String) :
    List (String × Task) → Option (List String)
  | [] => some []
  | p :: rest =>
    match env.globMatch pat p.2.reference with
    | none => none
    | some b =>
      match matchRefs env pat rest with
      | none => none
      | some l => some (if b then p.2.id :: l else l)

/-- Increment the count stored for an id in the idmap (restream.go:943). -/
def bump : List (String × Nat) → String → List (String × Nat)
  | [], id => [(id, 1)]
  | p :: rest, id =>
    if p.1 == id then (p.1, p.2 + 1) :: rest else p :: bump rest id

/-- Listing process ids (`GetProcessIDs`, restream.go:913): both patterns
empty yields every key; otherwise each non-empty pattern contributes one
counting pass over the registry — aborting with the empty result on a glob
error, Go's `return nil` — and the ids counted once per active pass are
returned. -/
def GetProcessIDs (env : Env) (s : RState) (idp refp : String) : List String :=
  if idp.length = 0 && refp.length = 0 then s.tasks.map Prod.fst
  else
    let step1 : Option (List (String × Nat) × Nat) :=
      if idp.length ≠ 0 then
        match matchIds env idp s.tasks with
        | none => none
        | some l => some (l.foldl bump [], 1)
      else some ([], 0)
    match step1 with
    | none => []
    | some (m1, c1) =>
      let step2 : Option (List (String × Nat) × Nat) :=
        if refp.length ≠ 0 then
          match matchRefs env refp s.tasks with
          | none => none
          | some l => some (l.foldl bump m1, c1 + 1)
        else some (m1, c1)
      match step2 with
      | none => []
      | some (m2, c2) => (m2.filter (fun p => p.2 == c2)).map Prod.fst

/-!
Concrete fixtures used by witnesses and counterexamples: an environment
whose collaborators behave as the real ones do on the handful of addresses
below (path addresses have no URL scheme, `filepath.Abs` keeps clean
absolute paths, the engine allow-lists accept everything by default, `[` is
a malformed glob pattern, the third-party semver parser accepts plain
versions only), and a few small configs and supervisor states.
-/

/-- Concrete collaborator environment for witnesses and counterexamples. -/
def envC : Env :=
  { skillsVersion := "4.4.1"
    parseSemver := fun v => if v == "4.4.1" then some (4, 4, 1) else none
    hasScheme := fun s => sHasPfx "rtmp://" s || sHasPfx "udp://" s || sHasPfx "srt://" s
    urlValidate := fun _ => true
    ffValidInput := fun _ => true
    ffValidOutput := fun _ => true
    absPath := fun s => some s
    globMatch := fun p c => if p == "[" then none else some (p == c) }

/-- Minimal config with one opaque input and the stdout output. -/
def cfgFor (pid : String) : AppConfig :=
  { id := pid, reference := "", ffversion := "", options := [],
    input := [{ id := "in", address := "x", options := [], cleanup := [] }],
    output := [{ id := "out", address := "-", options := [], cleanup := [] }],
    autostart := false }

/-- The minimal config with autostart switched on. -/
def cfgAuto (pid : String) : AppConfig := { cfgFor pid with autostart := true }

/-- Simple valid task fixture with the given user order and engine order. -/
def mkTask (pid ord engOrd : String) (uses : Bool) : Task :=
  { valid := true, id := pid, reference := "",
    process := { id := pid, reference := "", config := cfgFor pid, order := ord },
    config := cfgFor pid, ffmpeg := some { order := engOrd },
    playout := some [], usesDisk := uses }

/-- Registry holding one stopped task `a`. -/
def s0 : RState :=
  { tasks := [("a", mkTask "a" "stop" "stop" false)], nProc := 0, maxProc := 0,
    ports := [], diskfs := [], cleanup := [] }

/-- Registry with three loadable tasks ordered to start and cap 2. -/
def s6 : RState :=
  { tasks := [("a", mkTask "a" "start" "stop" false),
      ("b", mkTask "b" "start" "stop" false), ("c", mkTask "c" "start" "stop" false)],
    nProc := 0, maxProc := 2, ports := [], diskfs := [], cleanup := [] }

/-- Registry at its cap with one already running task. -/
def sCap : RState :=
  { tasks := [("a", mkTask "a" "start" "start" false)], nProc := 1, maxProc := 1,
    ports := [], diskfs := [], cleanup := [] }

/-- Registry with a running disk-writing task `d` and a running non-disk
task `e`, observed by a disk filesystem. -/
def sObs : RState :=
  { tasks := [("d", mkTask "d" "start" "start" true),
      ("e", mkTask "e" "start" "start" false)],
    nProc := 2, maxProc := 0, ports := [], diskfs := ["/a"], cleanup := [] }

/-- Registry with a stopped task holding a playout port and cleanup rules. -/
def sDel : RState :=
  { tasks := [("a", { mkTask "a" "stop" "stop" false with playout := some [("in", 7)] })],
    nProc := 0, maxProc := 0, ports := [1], diskfs := [],
    cleanup := [("a", "p1"), ("z", "p2")] }

/-- Registry with one running task and a cleanup rule. -/
def sRun : RState :=
  { tasks := [("a", mkTask "a" "start" "start" false)], nProc := 1, maxProc := 0,
    ports := [], diskfs := [], cleanup := [("a", "p1")] }

/-- Config whose single output is a path under the first of two disks. -/
def cfg5 : AppConfig :=
  { id := "p", reference := "", ffversion := "", options := [],
    input := [{ id := "i", address := "x", options := [], cleanup := [] }],
    output := [{ id := "o", address := "/a/x.ts", options := [], cleanup := [] }],
    autostart := false }

/-- Config whose single output is a path under neither of two disks. -/
def cfg5b : AppConfig :=
  { id := "p", reference := "", ffversion := "", options := [],
    input := [{ id := "i", address := "x", options := [], cleanup := [] }],
    output := [{ id := "o", address := "/c/x.ts", options := [], cleanup := [] }],
    autostart := false }

/-- Collaborator environment whose engine input allow-list rejects the
address `bad` (and only that). -/
def envR : Env :=
  { envC with ffValidInput := fun s => !(s == "bad") }

/-- Config whose single input carries the address `bad` rejected by
`envR`. -/
def cfg5c : AppConfig :=
  { cfg5 with input := [{ id := "i", address := "bad", options := [], cleanup := [] }] }

/-- Config with two inputs (IDs and addresses padded with whitespace) and
two outputs, one a path under the first of two disks and one a plain URL. -/
def cfg5d : AppConfig :=
  { id := "p", reference := "", ffversion := "", options := [],
    input := [{ id := " i", address := " x ", options := [], cleanup := [] },
      { id := "j", address := "y", options := [], cleanup := [] }],
    output := [{ id := "o", address := "/a/x.ts", options := [], cleanup := [] },
      { id := "q", address := "udp://h:1", options := [], cleanup := [] }],
    autostart := false }

/-- Input entry of the tee round-trip config. -/
def io8in : ConfigIO := { id := "i", address := "x", options := [], cleanup := [] }

/-- Output entry of the tee round-trip config: the spec's tee address. -/
def io8out : ConfigIO :=
  { id := "o"
    address := "[f=mpegts]udp://h:1|[onfail=ignore]/srv/basedir/x.ts"
    options := []
    cleanup := [] }

/-- Config whose single output is the tee address of the spec's round-trip
example. -/
def cfg8 : AppConfig :=
  { id := "p", reference := "", ffversion := "", options := [],
    input := [io8in], output := [io8out], autostart := false }

/-- Fallback task value for totalising partial projections of fixtures. -/
def dummyTask : Task := mkTask "?" "stop" "stop" false

/-- The task built by `createTask` for the minimal config `a` over `s0`. -/
def tX : Task :=
  match createTask envC s0 (cfgFor "a") with
  | .ok r => r.1
  | .error _ => dummyTask

/-- The pool left by `createTask` for the minimal config `a` over `s0`. -/
def poolX : List Nat :=
  match createTask envC s0 (cfgFor "a") with
  | .ok r => r.2
  | .error _ => []

/-- The task built by `createTask` for the autostart config `b` over `sCap`. -/
def tY : Task :=
  match createTask envC sCap (cfgAuto "b") with
  | .ok r => r.1
  | .error _ => dummyTask

/-- The pool left by `createTask` for the autostart config `b` over `sCap`. -/
def poolY : List Nat :=
  match createTask envC sCap (cfgAuto "b") with
  | .ok r => r.2
  | .error _ => []

/-- State after starting `a` in the cap-2 registry. -/
def s6a : RState := (startProcess s6 "a").1

/-- State after starting `a` and `b` in the cap-2 registry. -/
def s6ab : RState := (startProcess s6a "b").1

/-- State after starting `a` and `b` and then stopping `a` again. -/
def s6abStop : RState := (stopProcess s6ab "a").1

/-!
Helper lemmas about the association-list registry and the per-process
lifecycle paths, shared by the claim theorems below.
-/

/-- Membership in the registry makes the lookup succeed. -/
theorem alookup_isSome_of_mem {α : Type} {p : String × α} {l : List (String × α)}
    (h : p ∈ l) : (alookup p.1 l).isSome = true := by
  induction l with
  | nil => cases h
  | cons q rest ih =>
    by_cases hq : q.1 = p.1
    · simp [alookup, hq]
    · rcases List.mem_cons.mp h with h1 | h1
      · exact absurd (congrArg Prod.fst h1).symm hq
      · simpa [alookup, hq] using ih h1

/-- Under unique keys, lookup of a member's key returns its value. -/
theorem alookup_eq_of_mem_nodup {α : Type} {p : String × α} {l : List (String × α)}
    (hnd : (l.map Prod.fst).Nodup) (h : p ∈ l) : alookup p.1 l = some p.2 := by
  induction l with
  | nil => cases h
  | cons q rest ih =>
    rcases List.mem_cons.mp h with h1 | h1
    · simp [alookup, h1]
    · have hq : q.1 ≠ p.1 := by
        intro he
        have : p.1 ∈ rest.map Prod.fst := List.mem_map_of_mem Prod.fst h1
        rw [← he] at this
        exact (List.nodup_cons.mp (by simpa using hnd)).1 this
      have hnd' : (rest.map Prod.fst).Nodup := (List.nodup_cons.mp (by simpa using hnd)).2
      simpa [alookup, hq] using ih hnd' h1

/-- Looking up a different key is unaffected by `updateT`. -/
theorem alookup_updateT_ne {α : Type} (f : α → α) {k j : String} (hne : j ≠ k)
    (l : List (String × α)) : alookup j (updateT k f l) = alookup j l := by
  induction l with
  | nil => rfl
  | cons q rest ih =>
    simp only [updateT, List.map_cons, alookup, beq_iff_eq] at ih ⊢
    by_cases hqk : q.1 = k
    · have hqj : ¬ q.1 = j := fun hcon => hne (by rw [← hcon, hqk])
      rw [if_pos hqk, if_neg (show ¬ (q.1, f q.2).1 = j from hqj), if_neg hqj]
      exact ih
    · rw [if_neg hqk]
      by_cases hqj : q.1 = j
      · rw [if_pos hqj, if_pos hqj]
      · rw [if_neg hqj, if_neg hqj]
        exact ih

/-- Looking up the rewritten key after `updateT` applies the rewrite. -/
theorem alookup_updateT_self {α : Type} (f : α → α) {k : String} {t : α}
    {l : List (String × α)} (h : alookup k l = some t) :
    alookup k (updateT k f l) = some (f t) := by
  induction l with
  | nil => simp [alookup] at h
  | cons q rest ih =>
    simp only [alookup, beq_iff_eq] at h
    simp only [updateT, List.map_cons, alookup, beq_iff_eq]
    by_cases hq : q.1 = k
    · rw [if_pos hq] at h
      injection h with h2
      rw [if_pos hq, if_pos (show (q.1, f q.2).1 = k from hq), h2]
    · rw [if_neg hq] at h
      rw [if_neg hq, if_neg hq]
      simpa only [updateT, beq_iff_eq] using ih h

/-- Looking up a removed key after `removeT` fails. -/
theorem alookup_removeT_self {α : Type} (k : String) (l : List (String × α)) :
    alookup k (removeT k l) = none := by
  induction l with
  | nil => rfl
  | cons q rest ih =>
    by_cases hq : q.1 = k
    · simpa [removeT, hq] using ih
    · simpa [removeT, alookup, hq] using ih

/-- Looking up a different key is unaffected by `removeT`. -/
theorem alookup_removeT_ne {α : Type} {k j : String} (hne : j ≠ k)
    (l : List (String × α)) : alookup j (removeT k l) = alookup j l := by
  induction l with
  | nil => rfl
  | cons q rest ih =>
    simp only [removeT, List.filter_cons] at ih ⊢
    by_cases hq : q.1 = k
    · have hqj : ¬ q.1 = j := fun h => hne (by rw [← h, hq])
      rw [if_neg (by simp [hq])]
      rw [show alookup j (q :: rest) = alookup j rest from by
        simp [alookup, hqj]]
      exact ih
    · rw [if_pos (by simp [hq])]
      by_cases hqj : q.1 = j
      · simp [alookup, hqj]
      · simp only [alookup, beq_iff_eq]
        rw [if_neg hqj, if_neg hqj]
        exact ih

/-- Removing an absent key is the identity. -/
theorem removeT_of_alookup_none {α : Type} {k : String} {l : List (String × α)}
    (h : alookup k l = none) : removeT k l = l := by
  induction l with
  | nil => rfl
  | cons q rest ih =>
    by_cases hq : q.1 = k
    · simp [alookup, hq] at h
    · have h' : alookup k rest = none := by simpa [alookup, hq] using h
      have h2 : removeT k rest = rest := ih h'
      simp only [removeT, List.filter_cons] at h2 ⊢
      simp [hq, h2]

/-- A failing `startProcess` leaves the state untouched. -/
theorem startProcess_err_state {s : RState} {id : String} {e : String}
    (h : (startProcess s id).2 = some e) : (startProcess s id).1 = s := by
  cases hl : alookup id s.tasks with
  | none => simp [startProcess, hl]
  | some t =>
    cases hv : t.valid with
    | false => simp [startProcess, hl, hv]
    | true =>
      cases hf : t.ffmpeg with
      | none => simp [startProcess, hl, hv, hf]
      | some eng =>
        by_cases hc : (t.process.order == "start" && eng.order == "start") = true
        · simp [startProcess, hl, hv, hf, hc]
        · by_cases hm0 : 0 < s.maxProc
          · by_cases hm1 : s.maxProc ≤ s.nProc
            · simp [startProcess, hl, hv, hf, hc, hm0, hm1]
            · simp [startProcess, hl, hv, hf, hc, hm0, hm1] at h
          · simp [startProcess, hl, hv, hf, hc, hm0] at h

/-- Looking up a task not targeted by `stopProcess` is unaffected. -/
theorem stopProcess_frame (s : RState) (id j : String) (hne : j ≠ id) :
    alookup j (stopProcess s id).1.tasks = alookup j s.tasks := by
  cases hl : alookup id s.tasks with
  | none => simp [stopProcess, hl]
  | some t =>
    cases hf : t.ffmpeg with
    | none => simp [stopProcess, hl, hf]
    | some eng =>
      by_cases hc : (t.process.order == "stop" && eng.order == "stop") = true
      · simp [stopProcess, hl, hf, hc]
      · simp [stopProcess, hl, hf, hc, alookup_updateT_ne _ hne]

/-- Stopping a task ordered to start with a live engine handle rewrites it
to the stopped task and reports no error. -/
theorem stopProcess_stops {s : RState} {id : String} {t : Task} {eng : Engine}
    (hl : alookup id s.tasks = some t) (hf : t.ffmpeg = some eng)
    (ho : t.process.order = "start") :
    alookup id (stopProcess s id).1.tasks =
      some { t with process := { t.process with order := "stop" },
                    ffmpeg := some { order := "stop" } } ∧
    (stopProcess s id).2 = none ∧
    (stopProcess s id).1.nProc = s.nProc - 1 := by
  have hc : (t.process.order == "stop" && eng.order == "stop") = false := by
    simp [ho]
  refine ⟨?_, ?_, ?_⟩
  · have h2 := alookup_updateT_self
      (fun x =>
        { x with
          process := { x.process with order := "stop" },
          ffmpeg := some { order := "stop" } }) hl
    simpa [stopProcess, hl, hf, hc] using h2
  · simp [stopProcess, hl, hf, hc]
  · simp [stopProcess, hl, hf, hc]

/-- Folding the observer step over entries none of which has the key leaves
that key's lookup unchanged. -/
theorem foldl_obStep_frame {l : List (String × Task)} {s : RState} {id : String}
    (h : ∀ q ∈ l, q.1 ≠ id) :
    alookup id (List.foldl obStep s l).tasks = alookup id s.tasks := by
  induction l generalizing s with
  | nil => rfl
  | cons q rest ih =>
    have hq : q.1 ≠ id := h q (List.mem_cons_self q rest)
    have hrest : ∀ r ∈ rest, r.1 ≠ id := fun r hr => h r (List.mem_cons_of_mem q hr)
    rw [List.foldl_cons, ih hrest]
    unfold obStep
    by_cases hc : obStopCond q.2 = true
    · rw [if_pos hc]
      exact stopProcess_frame s q.1 id (Ne.symm hq)
    · rw [if_neg hc]

/-- A registry entry the observer's filter skips keeps its value across the
whole tick. -/
theorem foldl_obStep_unchanged {l : List (String × Task)} {s : RState}
    {p : String × Task}
    (hnd : (l.map Prod.fst).Nodup) (hmem : p ∈ l)
    (hcond : obStopCond p.2 = false)
    (hacc : alookup p.1 s.tasks = some p.2) :
    alookup p.1 (List.foldl obStep s l).tasks = some p.2 := by
  induction l generalizing s with
  | nil => cases hmem
  | cons q rest ih =>
    rw [List.foldl_cons]
    rcases List.mem_cons.mp hmem with h1 | h1
    · subst h1
      have hkeys : ∀ r ∈ rest, r.1 ≠ p.1 := by
        intro r hr he
        have h2 : p.1 ∈ rest.map Prod.fst := he ▸ List.mem_map_of_mem Prod.fst hr
        exact (List.nodup_cons.mp (by simpa using hnd)).1 h2
      rw [foldl_obStep_frame hkeys]
      unfold obStep
      rw [if_neg (by simp [hcond])]
      exact hacc
    · have hne : q.1 ≠ p.1 := by
        intro he
        have h2 : p.1 ∈ rest.map Prod.fst := List.mem_map_of_mem Prod.fst h1
        exact (List.nodup_cons.mp (by simpa using hnd)).1 (he ▸ h2)
      have hnd2 : (rest.map Prod.fst).Nodup := (List.nodup_cons.mp (by simpa using hnd)).2
      have hacc2 : alookup p.1 (obStep s q).tasks = some p.2 := by
        unfold obStep
        by_cases hc : obStopCond q.2 = true
        · rw [if_pos hc, stopProcess_frame s q.1 p.1 (Ne.symm hne)]
          exact hacc
        · rw [if_neg hc]
          exact hacc
      exact ih hnd2 h1 hacc2

/-- A registry entry the observer's filter selects ends the tick rewritten
to its stopped form. -/
theorem foldl_obStep_stopped {l : List (String × Task)} {s : RState}
    {p : String × Task}
    (hnd : (l.map Prod.fst).Nodup) (hmem : p ∈ l)
    (hcond : obStopCond p.2 = true)
    (heng : ∃ eng, p.2.ffmpeg = some eng)
    (hacc : alookup p.1 s.tasks = some p.2) :
    alookup p.1 (List.foldl obStep s l).tasks =
      some { p.2 with process := { p.2.process with order := "stop" },
                      ffmpeg := some { order := "stop" } } := by
  induction l generalizing s with
  | nil => cases hmem
  | cons q rest ih =>
    rw [List.foldl_cons]
    rcases List.mem_cons.mp hmem with h1 | h1
    · subst h1
      have hkeys : ∀ r ∈ rest, r.1 ≠ p.1 := by
        intro r hr he
        have h2 : p.1 ∈ rest.map Prod.fst := he ▸ List.mem_map_of_mem Prod.fst hr
        exact (List.nodup_cons.mp (by simpa using hnd)).1 h2
      rw [foldl_obStep_frame hkeys]
      unfold obStep
      rw [if_pos hcond]
      have ho : p.2.process.order = "start" := by
        have hc2 := hcond
        unfold obStopCond at hc2
        simp only [Bool.and_eq_true, beq_iff_eq] at hc2
        exact hc2.2
      obtain ⟨eng, heng2⟩ := heng
      exact (stopProcess_stops hacc heng2 ho).1
    · have hne : q.1 ≠ p.1 := by
        intro he
        have h2 : p.1 ∈ rest.map Prod.fst := List.mem_map_of_mem Prod.fst h1
        exact (List.nodup_cons.mp (by simpa using hnd)).1 (he ▸ h2)
      have hnd2 : (rest.map Prod.fst).Nodup := (List.nodup_cons.mp (by simpa using hnd)).2
      have hacc2 : alookup p.1 (obStep s q).tasks = some p.2 := by
        unfold obStep
        by_cases hc : obStopCond q.2 = true
        · rw [if_pos hc, stopProcess_frame s q.1 p.1 (Ne.symm hne)]
          exact hacc
        · rw [if_neg hc]
          exact hacc
      exact ih hnd2 h1 hacc2

/-- C1: For every observer tick on a disk filesystem whose reported limit
is positive and reported size at least the limit, each registry task that
is valid, uses disk and has Order `start` is stopped through the
per-process stop path, so afterwards its Order equals `stop`; every task
that is invalid, does not use disk, or is not ordered to start is left
unchanged by the tick. The engine hypothesis is the spec's invariant 3: a
valid task always carries an engine handle. -/
theorem observe_full_disk_stops_disk_tasks (s : RState) (size limit : Int)
    (hlim : 0 < limit) (hsize : limit ≤ size)
    (hnd : (s.tasks.map Prod.fst).Nodup)
    (heng : ∀ p ∈ s.tasks, p.2.valid = true → p.2.ffmpeg.isSome = true) :
    ∀ p ∈ s.tasks,
      (obStopCond p.2 = true →
        ∃ t', alookup p.1 (observeTick s size limit).tasks = some t' ∧
          t'.process.order = "stop") ∧
      (obStopCond p.2 = false →
        alookup p.1 (observeTick s size limit).tasks = some p.2) := by
  intro p hp
  have hobs : observeTick s size limit = s.tasks.foldl obStep s := by
    unfold observeTick
    rw [if_pos ⟨hlim, hsize⟩]
  constructor
  · intro hc
    have hvalid : p.2.valid = true := by
      have hc2 := hc
      unfold obStopCond at hc2
      simp only [Bool.and_eq_true] at hc2
      exact hc2.1.1
    obtain ⟨eng, heng2⟩ := Option.isSome_iff_exists.mp (heng p hp hvalid)
    rw [hobs]
    exact ⟨_, foldl_obStep_stopped hnd hp hc ⟨eng, heng2⟩
      (alookup_eq_of_mem_nodup hnd hp), rfl⟩
  · intro hc
    rw [hobs]
    exact foldl_obStep_unchanged hnd hp hc (alookup_eq_of_mem_nodup hnd hp)

/-- Witness for C1 at a concrete full filesystem: the running disk task `d`
ends the tick with Order `stop`, the running non-disk task `e` is
untouched. -/
theorem observe_full_disk_stops_disk_tasks_witness :
    (∃ t', alookup "d" (observeTick sObs 100 100).tasks = some t' ∧
      t'.process.order = "stop") ∧
    alookup "e" (observeTick sObs 100 100).tasks =
      some (mkTask "e" "start" "start" false) := by
  have h := observe_full_disk_stops_disk_tasks sObs 100 100 (by decide) (by decide)
    (by decide) (by decide)
  exact ⟨(h ("d", mkTask "d" "start" "start" true) (by decide)).1 (by decide),
    (h ("e", mkTask "e" "start" "start" false) (by decide)).2 (by decide)⟩

/-- C2: The supervisor-level Stop stops the engine (with wait) of every
task that has a non-nil engine handle and removes its cleanup rules, but
leaves every task's `process.Order` — in fact the whole catalog entry —
unchanged. -/
theorem stop_supervisor_preserves_order (s : RState) :
    ∀ p ∈ s.tasks,
      ∃ t', (p.1, t') ∈ (stopRestream s).tasks ∧
        t'.process = p.2.process ∧
        (∀ e, p.2.ffmpeg = some e → t'.ffmpeg = some { order := "stop" }) ∧
        (p.2.ffmpeg = none → t'.ffmpeg = none) ∧
        ∀ c ∈ (stopRestream s).cleanup, c.1 ≠ p.1 := by
  intro p hp
  refine ⟨stopEngineTask p.2, ?_, rfl, ?_, ?_, ?_⟩
  · show (p.1, stopEngineTask p.2) ∈ s.tasks.map (fun q => (q.1, stopEngineTask q.2))
    exact List.mem_map_of_mem (fun q => (q.1, stopEngineTask q.2)) hp
  · intro e he
    unfold stopEngineTask
    rw [he]
    rfl
  · intro he
    unfold stopEngineTask
    rw [he]
    rfl
  · intro c hc hceq
    have hc2 : c ∈ s.cleanup.filter (fun c => (alookup c.1 s.tasks).isNone) := hc
    rw [List.mem_filter] at hc2
    have h3 := hc2.2
    rw [hceq, Option.isNone_iff_eq_none] at h3
    have h1 := alookup_isSome_of_mem hp
    rw [h3] at h1
    cases h1

/-- Witness for C2 at a concrete running registry. -/
theorem stop_supervisor_preserves_order_witness :
    ∃ t', ("a", t') ∈ (stopRestream sRun).tasks ∧
      t'.process = (mkTask "a" "start" "start" false).process ∧
      (∀ e, (mkTask "a" "start" "start" false).ffmpeg = some e →
        t'.ffmpeg = some { order := "stop" }) ∧
      ((mkTask "a" "start" "start" false).ffmpeg = none → t'.ffmpeg = none) ∧
      ∀ c ∈ (stopRestream sRun).cleanup, c.1 ≠ "a" := by
  exact stop_supervisor_preserves_order sRun
    ("a", mkTask "a" "start" "start" false) (by decide)

/-- Counterexample for C3 as stated: the registry check of `AddProcess`
compares the raw config ID, not its trimmed form. With task `a` registered,
adding a config whose ID is `" a"` — trimmed equal to `a` — does not fail
with `process already exists`; the task is inserted under the raw ID. -/
theorem addProcess_trimmed_id_counterexample :
    trimS (cfgFor " a").id = "a" ∧
    (alookup "a" s0.tasks).isSome = true ∧
    (AddProcess envC s0 (cfgFor " a")).2 = none ∧
    (alookup " a" (AddProcess envC s0 (cfgFor " a")).1.tasks).isSome = true := by
  refine ⟨by decide, by decide, by decide, by decide⟩

/-- C3 (amended): AddProcess on a config whose raw, untrimmed ID equals the
key of a task already in the registry returns `process already exists` and
leaves the registry unchanged; and for every config whose built task has
Order `start`, if the internal start fails, the just-inserted task is
removed from the registry again and the error is returned. -/
theorem addProcess_duplicate_and_rollback (env : Env) (s : RState)
    (cfg : AppConfig) (t : Task) (pool : List Nat)
    (hct : createTask env s cfg = .ok (t, pool)) :
    ((alookup t.id s.tasks).isSome = true →
      (AddProcess env s cfg).2 = some errProcessExists ∧
      (AddProcess env s cfg).1.tasks = s.tasks) ∧
    (∀ e, alookup t.id s.tasks = none → t.process.order = "start" →
      (startProcess (addInserted { s with ports := pool } t) t.id).2 = some e →
      (AddProcess env s cfg).2 = some e ∧
      (AddProcess env s cfg).1.tasks = s.tasks) := by
  constructor
  · intro hdup
    obtain ⟨u, hu⟩ := Option.isSome_iff_exists.mp hdup
    have hu2 : alookup t.id ({ s with ports := pool } : RState).tasks = some u := hu
    simp [AddProcess, hct, hu2]
  · intro e hnone hord hfail
    have hnone2 : alookup t.id ({ s with ports := pool } : RState).tasks = none := hnone
    cases hsp : startProcess (addInserted { s with ports := pool } t) t.id with
    | mk s3 r =>
      have hr : r = some e := by rw [← hfail, hsp]
      subst hr
      have hs3 : s3 = addInserted { s with ports := pool } t := by
        have h2 := @startProcess_err_state (addInserted { s with ports := pool } t)
          t.id e (by rw [hsp])
        rw [hsp] at h2
        exact h2
      have htasks : s3.tasks = (t.id, t) :: s.tasks := by rw [hs3]; rfl
      have hrem : removeT t.id s3.tasks = s.tasks := by
        rw [htasks]
        show List.filter (fun p => p.1 != t.id) ((t.id, t) :: s.tasks) = s.tasks
        rw [List.filter_cons]
        rw [if_neg (by simp)]
        exact removeT_of_alookup_none hnone
      simp [AddProcess, hct, hnone2, hord, hsp, hrem]

/-- Witness for the amended C3: the duplicate branch at the one-task
registry, and the rollback branch when the cap refuses the autostarted
engine. -/
theorem addProcess_duplicate_and_rollback_witness :
    ((AddProcess envC s0 (cfgFor "a")).2 = some errProcessExists ∧
      (AddProcess envC s0 (cfgFor "a")).1.tasks = s0.tasks) ∧
    ((AddProcess envC sCap (cfgAuto "b")).2 =
        some "max. number of running processes reached" ∧
      (AddProcess envC sCap (cfgAuto "b")).1.tasks = sCap.tasks) := by
  constructor
  · exact (addProcess_duplicate_and_rollback envC s0 (cfgFor "a") tX poolX rfl).1
      (by decide)
  · exact (addProcess_duplicate_and_rollback envC sCap (cfgAuto "b") tY poolY rfl).2
      "max. number of running processes reached" (by decide) (by decide) (by decide)

/-- Every branch of `startProcess` either returns the state unchanged or
increments `nProc` by one while keeping the cap, and the increment happens
only when the cap was not exhausted. -/
theorem startProcess_state_cases (s : RState) (id : String) :
    (startProcess s id).1 = s ∨
    ((startProcess s id).1.nProc = s.nProc + 1 ∧
      (startProcess s id).1.maxProc = s.maxProc ∧
      ¬(0 < s.maxProc ∧ s.maxProc ≤ s.nProc)) := by
  cases hl : alookup id s.tasks with
  | none => exact Or.inl (by simp [startProcess, hl])
  | some t =>
    cases hv : t.valid with
    | false => exact Or.inl (by simp [startProcess, hl, hv])
    | true =>
      cases hf : t.ffmpeg with
      | none => exact Or.inl (by simp [startProcess, hl, hv, hf])
      | some eng =>
        by_cases hc : (t.process.order == "start" && eng.order == "start") = true
        · exact Or.inl (by simp [startProcess, hl, hv, hf, hc])
        · by_cases hm : 0 < s.maxProc ∧ s.maxProc ≤ s.nProc
          · exact Or.inl (by simp [startProcess, hl, hv, hf, hc, hm.1, hm.2])
          · have hcap : (decide (0 < s.maxProc) && decide (s.maxProc ≤ s.nProc)) = false := by
              rcases not_and_or.mp hm with h | h
              · simp [h]
              · simp [h]
            refine Or.inr ⟨?_, ?_, hm⟩
            · simp [startProcess, hl, hv, hf, hc, hcap]
            · simp [startProcess, hl, hv, hf, hc, hcap]

/-- Every branch of `stopProcess` either returns the state unchanged or
decrements `nProc` by one while keeping the cap. -/
theorem stopProcess_state_cases (s : RState) (id : String) :
    (stopProcess s id).1 = s ∨
    ((stopProcess s id).1.nProc = s.nProc - 1 ∧
      (stopProcess s id).1.maxProc = s.maxProc) := by
  cases hl : alookup id s.tasks with
  | none => exact Or.inl (by simp [stopProcess, hl])
  | some t =>
    cases hf : t.ffmpeg with
    | none => exact Or.inl (by simp [stopProcess, hl, hf])
    | some eng =>
      by_cases hc : (t.process.order == "stop" && eng.order == "stop") = true
      · exact Or.inl (by simp [stopProcess, hl, hf, hc])
      · exact Or.inr ⟨by simp [stopProcess, hl, hf, hc], by simp [stopProcess, hl, hf, hc]⟩

/-- Counterexample for C6 as stated: a valid task already ordered to start
whose engine also reports start makes `startProcess` a silent no-op — it
returns no error and increments nothing — even though `nProc` has reached
the positive cap. -/
theorem startProcess_cap_noop_counterexample :
    0 < sCap.maxProc ∧ sCap.maxProc ≤ sCap.nProc ∧
    (startProcess sCap "a").2 = none ∧
    (startProcess sCap "a").1 = sCap := by
  refine ⟨by decide, by decide, by decide, by decide⟩

/-- C6 (amended): with a positive cap, `nProc ≤ MaxProcesses` is preserved
by the start and stop paths; `startProcess` errors and changes nothing when
the task is present, valid, not already started-with-started-engine, and
the cap is exhausted; a non-no-op successful start increments `nProc` and
orders the task to start; a non-no-op stop decrements `nProc`; and with
`MaxProcesses = 2` and three valid start-ordered tasks exactly two start,
the third's start errors, and stopping one lets the third start. -/
theorem nproc_cap_invariant_and_scenario (s : RState) (id : String) :
    (0 < s.maxProc → s.nProc ≤ s.maxProc →
      (startProcess s id).1.nProc ≤ (startProcess s id).1.maxProc ∧
      (startProcess s id).1.maxProc = s.maxProc ∧
      (stopProcess s id).1.nProc ≤ (stopProcess s id).1.maxProc ∧
      (stopProcess s id).1.maxProc = s.maxProc) ∧
    (∀ t eng, alookup id s.tasks = some t → t.valid = true → t.ffmpeg = some eng →
      ¬(t.process.order = "start" ∧ eng.order = "start") →
      0 < s.maxProc → s.maxProc ≤ s.nProc →
      startProcess s id = (s, some "max. number of running processes reached")) ∧
    (∀ t eng, alookup id s.tasks = some t → t.valid = true → t.ffmpeg = some eng →
      ¬(t.process.order = "start" ∧ eng.order = "start") →
      ¬(0 < s.maxProc ∧ s.maxProc ≤ s.nProc) →
      (startProcess s id).2 = none ∧
      (startProcess s id).1.nProc = s.nProc + 1 ∧
      alookup id (startProcess s id).1.tasks =
        some { t with process := { t.process with order := "start" },
                      ffmpeg := some { order := "start" } }) ∧
    (∀ t eng, alookup id s.tasks = some t → t.ffmpeg = some eng →
      ¬(t.process.order = "stop" ∧ eng.order = "stop") →
      (stopProcess s id).2 = none ∧
      (stopProcess s id).1.nProc = s.nProc - 1) ∧
    ((startProcess s6 "a").2 = none ∧ s6a.nProc = 1 ∧
      (startProcess s6a "b").2 = none ∧ s6ab.nProc = 2 ∧
      (startProcess s6ab "c").2 =
        some "max. number of running processes reached" ∧
      (startProcess s6ab "c").1 = s6ab ∧
      (stopProcess s6ab "a").2 = none ∧
      (startProcess s6abStop "c").2 = none ∧
      (startProcess s6abStop "c").1.nProc = 2) := by
  refine ⟨?_, ?_, ?_, ?_, ?_⟩
  · intro hm0 hle
    refine ⟨?_, ?_, ?_, ?_⟩
    · rcases startProcess_state_cases s id with h | ⟨h1, h2, h3⟩
      · rw [h]; exact hle
      · rw [h1, h2]
        rcases not_and_or.mp h3 with h4 | h4
        · exact absurd hm0 h4
        · omega
    · rcases startProcess_state_cases s id with h | ⟨h1, h2, h3⟩
      · rw [h]
      · exact h2
    · rcases stopProcess_state_cases s id with h | ⟨h1, h2⟩
      · rw [h]; exact hle
      · rw [h1, h2]; omega
    · rcases stopProcess_state_cases s id with h | ⟨h1, h2⟩
      · rw [h]
      · exact h2
  · intro t eng hl hv hf hno hm0 hm1
    have hc : ¬((t.process.order == "start" && eng.order == "start") = true) := by
      simpa [Bool.and_eq_true, beq_iff_eq] using hno
    simp [startProcess, hl, hv, hf, hc, hm0, hm1]
  · intro t eng hl hv hf hno hcap
    have hc : ¬((t.process.order == "start" && eng.order == "start") = true) := by
      simpa [Bool.and_eq_true, beq_iff_eq] using hno
    have hcapb : (decide (0 < s.maxProc) && decide (s.maxProc ≤ s.nProc)) = false := by
      rcases not_and_or.mp hcap with h | h
      · simp [h]
      · simp [h]
    refine ⟨?_, ?_, ?_⟩
    · simp [startProcess, hl, hv, hf, hc, hcapb]
    · simp [startProcess, hl, hv, hf, hc, hcapb]
    · have h2 := alookup_updateT_self
        (fun x =>
          { x with
            process := { x.process with order := "start" },
            ffmpeg := some { order := "start" } }) hl
      simpa [startProcess, hl, hv, hf, hc, hcapb] using h2
  · intro t eng hl hf hno
    have hc : ¬((t.process.order == "stop" && eng.order == "stop") = true) := by
      simpa [Bool.and_eq_true, beq_iff_eq] using hno
    exact ⟨by simp [stopProcess, hl, hf, hc], by simp [stopProcess, hl, hf, hc]⟩
  · refine ⟨by decide, by decide, by decide, by decide, by decide, by decide,
      by decide, by decide, by decide⟩

/-- Witness for the amended C6, exercising the invariant, the cap error,
the increment and the decrement at concrete states. -/
theorem nproc_cap_invariant_and_scenario_witness :
    ((startProcess s6 "a").1.nProc ≤ (startProcess s6 "a").1.maxProc ∧
      (startProcess s6 "a").1.maxProc = s6.maxProc ∧
      (stopProcess s6 "a").1.nProc ≤ (stopProcess s6 "a").1.maxProc ∧
      (stopProcess s6 "a").1.maxProc = s6.maxProc) ∧
    startProcess s6ab "c" = (s6ab, some "max. number of running processes reached") ∧
    ((startProcess s6 "a").2 = none ∧
      (startProcess s6 "a").1.nProc = s6.nProc + 1) ∧
    ((stopProcess s6 "a").2 = none ∧
      (stopProcess s6 "a").1.nProc = s6.nProc - 1) := by
  refine ⟨?_, ?_, ?_, ?_⟩
  · exact (nproc_cap_invariant_and_scenario s6 "a").1 (by decide) (by decide)
  · exact (nproc_cap_invariant_and_scenario s6ab "c").2.1
      (mkTask "c" "start" "stop" false) { order := "stop" }
      (by decide) (by decide) (by decide) (by decide) (by decide) (by decide)
  · have h := (nproc_cap_invariant_and_scenario s6 "a").2.2.1
      (mkTask "a" "start" "stop" false) { order := "stop" }
      (by decide) (by decide) (by decide) (by decide) (by decide)
    exact ⟨h.1, h.2.1⟩
  · exact (nproc_cap_invariant_and_scenario s6 "a").2.2.2.1
      (mkTask "a" "start" "stop" false) { order := "stop" }
      (by decide) (by decide) (by decide)

/-- C7: `deleteProcess` on a task whose Order is not `stop` returns an
error and leaves the whole state — registry, port pool, cleanup rules —
unchanged; on a task whose Order is `stop` it succeeds, releases the
task's playout ports back to the engine pool, removes the task's cleanup
rules, removes the task from the registry and touches no other entry. -/
theorem deleteProcess_requires_stop (s : RState) (id : String) (t : Task)
    (hl : alookup id s.tasks = some t) :
    (t.process.order ≠ "stop" →
      (deleteProcess s id).2.isSome = true ∧ (deleteProcess s id).1 = s) ∧
    (t.process.order = "stop" →
      (deleteProcess s id).2 = none ∧
      alookup id (deleteProcess s id).1.tasks = none ∧
      (∀ j, j ≠ id → alookup j (deleteProcess s id).1.tasks = alookup j s.tasks) ∧
      (deleteProcess s id).1.ports =
        s.ports ++ (match t.playout with | none => [] | some ps => ps.map Prod.snd) ∧
      (∀ c ∈ (deleteProcess s id).1.cleanup, c.1 ≠ id) ∧
      (∀ c ∈ s.cleanup, c.1 ≠ id → c ∈ (deleteProcess s id).1.cleanup)) := by
  constructor
  · intro hne
    have hb : (t.process.order != "stop") = true := by simpa using hne
    constructor
    · simp [deleteProcess, hl, hb]
    · simp [deleteProcess, hl, hb]
  · intro heq
    have hb : (t.process.order != "stop") = false := by simpa using heq
    cases hp : t.playout with
    | none =>
      refine ⟨by simp [deleteProcess, hl, hb, unsetPlayoutPorts, hp], ?_, ?_, ?_, ?_, ?_⟩
      · simpa [deleteProcess, hl, hb, unsetPlayoutPorts, hp, unsetCleanup]
          using alookup_removeT_self id (s.tasks : List (String × Task))
      · intro j hj
        simpa [deleteProcess, hl, hb, unsetPlayoutPorts, hp, unsetCleanup]
          using alookup_removeT_ne hj (s.tasks : List (String × Task))
      · simp [deleteProcess, hl, hb, unsetPlayoutPorts, hp, unsetCleanup]
      · intro c hc
        have hc2 : c ∈ s.cleanup.filter (fun c => c.1 != id) := by
          simpa [deleteProcess, hl, hb, unsetPlayoutPorts, hp, unsetCleanup] using hc
        have := (List.mem_filter.mp hc2).2
        simpa using this
      · intro c hc hcne
        show c ∈ (deleteProcess s id).1.cleanup
        have : c ∈ s.cleanup.filter (fun c => c.1 != id) :=
          List.mem_filter.mpr ⟨hc, by simpa using hcne⟩
        simpa [deleteProcess, hl, hb, unsetPlayoutPorts, hp, unsetCleanup] using this
    | some ps =>
      refine ⟨by simp [deleteProcess, hl, hb, unsetPlayoutPorts, hp], ?_, ?_, ?_, ?_, ?_⟩
      · simpa [deleteProcess, hl, hb, unsetPlayoutPorts, hp, unsetCleanup]
          using alookup_removeT_self id (s.tasks : List (String × Task))
      · intro j hj
        simpa [deleteProcess, hl, hb, unsetPlayoutPorts, hp, unsetCleanup]
          using alookup_removeT_ne hj (s.tasks : List (String × Task))
      · simp [deleteProcess, hl, hb, unsetPlayoutPorts, hp, unsetCleanup]
      · intro c hc
        have hc2 : c ∈ s.cleanup.filter (fun c => c.1 != id) := by
          simpa [deleteProcess, hl, hb, unsetPlayoutPorts, hp, unsetCleanup] using hc
        have := (List.mem_filter.mp hc2).2
        simpa using this
      · intro c hc hcne
        show c ∈ (deleteProcess s id).1.cleanup
        have : c ∈ s.cleanup.filter (fun c => c.1 != id) :=
          List.mem_filter.mpr ⟨hc, by simpa using hcne⟩
        simpa [deleteProcess, hl, hb, unsetPlayoutPorts, hp, unsetCleanup] using this

/-- Witness for C7: deleting the running task fails and changes nothing;
deleting the stopped task returns its port 7 to the pool, drops its cleanup
rule and removes it from the registry. -/
theorem deleteProcess_requires_stop_witness :
    ((deleteProcess sRun "a").2.isSome = true ∧ (deleteProcess sRun "a").1 = sRun) ∧
    ((deleteProcess sDel "a").2 = none ∧
      alookup "a" (deleteProcess sDel "a").1.tasks = none ∧
      (deleteProcess sDel "a").1.ports = sDel.ports ++ [7] ∧
      ∀ c ∈ (deleteProcess sDel "a").1.cleanup, c.1 ≠ "a") := by
  constructor
  · exact (deleteProcess_requires_stop sRun "a" (mkTask "a" "start" "start" false)
      (by decide)).1 (by decide)
  · have h := (deleteProcess_requires_stop sDel "a"
      ({ mkTask "a" "stop" "stop" false with playout := some [("in", 7)] })
      (by decide)).2 (by decide)
    exact ⟨h.1, h.2.1, h.2.2.2.1, h.2.2.2.2.1⟩

/-- An address that starts with `#` is non-empty. -/
theorem sHasPfx_hash_ne_empty {address : String}
    (h : sHasPfx "#" address = true) : address.length ≠ 0 := by
  intro h0
  have hdata : address.data = [] := List.length_eq_zero.mp h0
  rw [sHasPfx, hdata] at h
  cases h

/-- C4: `resolveAddress` on an empty address errors; a non-`#` address
passes through unchanged; a `#` address not matching `^#(.+):output=(.+)`
errors; a match whose referenced id equals the current task id errors
(self-reference); a match naming an id absent from the task map errors; a
match naming an existing task with no output of the captured id errors; and
otherwise the referenced output's already-resolved address is returned. -/
theorem resolveAddress_cases (tasks : List (String × Task)) (id address : String) :
    (address.length = 0 → resolveAddress tasks id address = .error "empty address") ∧
    (address.length ≠ 0 → sHasPfx "#" address = false →
      resolveAddress tasks id address = .ok address) ∧
    (sHasPfx "#" address = true → refSplitCh (address.data.drop 1) = none →
      ∃ e, resolveAddress tasks id address = .error e) ∧
    (∀ a b : List Char, sHasPfx "#" address = true →
      refSplitCh (address.data.drop 1) = some (a, b) →
      ((⟨a⟩ : String) = id → ∃ e, resolveAddress tasks id address = .error e) ∧
      ((⟨a⟩ : String) ≠ id → alookup (⟨a⟩ : String) tasks = none →
        ∃ e, resolveAddress tasks id address = .error e) ∧
      (∀ t : Task, (⟨a⟩ : String) ≠ id → alookup (⟨a⟩ : String) tasks = some t →
        (t.config.output.find? (fun o => o.id == (⟨b⟩ : String)) = none →
          ∃ e, resolveAddress tasks id address = .error e) ∧
        (∀ o : ConfigIO,
          t.config.output.find? (fun o => o.id == (⟨b⟩ : String)) = some o →
          resolveAddress tasks id address = .ok o.address))) := by
  refine ⟨?_, ?_, ?_, ?_⟩
  · intro h
    simp [resolveAddress, h]
  · intro h1 h2
    simp [resolveAddress, h1, h2]
  · intro hpfx hsplit
    have h1 := sHasPfx_hash_ne_empty hpfx
    rw [List.drop_one] at hsplit
    exact ⟨"invalid format (" ++ address ++ ")",
      by simp [resolveAddress, h1, hpfx, hsplit]⟩
  · intro a b hpfx hsplit
    have h1 := sHasPfx_hash_ne_empty hpfx
    rw [List.drop_one] at hsplit
    refine ⟨?_, ?_, ?_⟩
    · intro hself
      exact ⟨"self-reference not possible (" ++ address ++ ")",
        by simp [resolveAddress, h1, hpfx, hsplit, hself]⟩
    · intro hne hnone
      exact ⟨"unknown process '" ++ (⟨a⟩ : String) ++ "' (" ++ address ++ ")",
        by simp [resolveAddress, h1, hpfx, hsplit, hne, hnone]⟩
    · intro t hne hsome
      refine ⟨?_, ?_⟩
      · intro hfind
        exact ⟨"the process '" ++ (⟨a⟩ : String) ++ "' has no outputs with the ID '" ++
            (⟨b⟩ : String) ++ "' (" ++ address ++ ")",
          by simp [resolveAddress, h1, hpfx, hsplit, hne, hsome, hfind]⟩
      · intro o hfind
        simp [resolveAddress, h1, hpfx, hsplit, hne, hsome, hfind]

/-- Witness for C4 at concrete addresses over the one-task registry `s0`:
one instance of each case. -/
theorem resolveAddress_cases_witness :
    resolveAddress s0.tasks "p" "" = .error "empty address" ∧
    resolveAddress s0.tasks "p" "rtmp://x" = .ok "rtmp://x" ∧
    (∃ e, resolveAddress s0.tasks "p" "#foo" = .error e) ∧
    (∃ e, resolveAddress s0.tasks "p" "#p:output=o" = .error e) ∧
    (∃ e, resolveAddress s0.tasks "p" "#q:output=o" = .error e) ∧
    (∃ e, resolveAddress s0.tasks "p" "#a:output=z" = .error e) ∧
    resolveAddress s0.tasks "p" "#a:output=out" = .ok "-" := by
  refine ⟨?_, ?_, ?_, ?_, ?_, ?_, ?_⟩
  · exact (resolveAddress_cases s0.tasks "p" "").1 (by decide)
  · exact (resolveAddress_cases s0.tasks "p" "rtmp://x").2.1 (by decide) (by decide)
  · exact (resolveAddress_cases s0.tasks "p" "#foo").2.2.1 (by decide) (by decide)
  · exact ((resolveAddress_cases s0.tasks "p" "#p:output=o").2.2.2
      "p".data "o".data (by decide) (by decide)).1 (by decide)
  · exact ((resolveAddress_cases s0.tasks "p" "#q:output=o").2.2.2
      "q".data "o".data (by decide) (by decide)).2.1 (by decide) (by decide)
  · exact (((resolveAddress_cases s0.tasks "p" "#a:output=z").2.2.2
      "a".data "z".data (by decide) (by decide)).2.2
      (mkTask "a" "stop" "stop" false) (by decide) (by decide)).1 (by decide)
  · exact (((resolveAddress_cases s0.tasks "p" "#a:output=out").2.2.2
      "a".data "out".data (by decide) (by decide)).2.2
      (mkTask "a" "stop" "stop" false) (by decide) (by decide)).2
      { id := "out", address := "-", options := [], cleanup := [] } (by decide)

/-- Resolving references rewrites only the inputs of a config. -/
theorem resolveAddresses_shape {tasks : List (String × Task)} {cfg cfg2 : AppConfig}
    (h : resolveAddresses tasks cfg = .ok cfg2) :
    cfg2.ffversion = cfg.ffversion ∧ cfg2.id = cfg.id ∧
    cfg2.output = cfg.output ∧ cfg2.autostart = cfg.autostart := by
  unfold resolveAddresses at h
  cases hr : resolveInputs tasks cfg.id cfg.input with
  | error e => rw [hr] at h; cases h
  | ok l =>
    rw [hr] at h
    injection h with h2
    rw [← h2]
    exact ⟨rfl, rfl, rfl, rfl⟩

/-- Config validation rewrites only the IO lists of a config. -/
theorem validateConfig_shape {env : Env} {bds : List String} {cfg cfg2 : AppConfig}
    {ud : Bool} (h : validateConfig env bds cfg = .ok (cfg2, ud)) :
    cfg2.ffversion = cfg.ffversion ∧ cfg2.id = cfg.id ∧
    cfg2.autostart = cfg.autostart := by
  simp only [validateConfig] at h
  by_cases h1 : cfg.input.length = 0
  · rw [if_pos h1] at h
    cases h
  · rw [if_neg h1] at h
    split at h
    · cases h
    · rename_i ins heq
      by_cases h2 : cfg.output.length = 0
      · rw [if_pos h2] at h
        cases h
      · rw [if_neg h2] at h
        split at h
        · cases h
        · rename_i outs hasFiles heq2
          injection h with h3
          have h4 : ({ cfg with input := ins, output := outs } : AppConfig) = cfg2 :=
            congrArg Prod.fst h3
          rw [← h4]
          exact ⟨rfl, rfl, rfl⟩

/-- Playout port assignment rewrites only the inputs and the port map of a
task. -/
theorem setPlayoutPorts_shape (pool : List Nat) (t : Task) :
    (setPlayoutPorts pool t).1.config.ffversion = t.config.ffversion ∧
    (setPlayoutPorts pool t).1.process = t.process := by
  unfold setPlayoutPorts unsetPlayoutPorts
  cases t.playout with
  | none => exact ⟨rfl, rfl⟩
  | some ps => exact ⟨rfl, rfl⟩

/-- The FFVersion carried by a successfully built task, in the persisted
catalog entry and in the working config alike, is the caret constraint
derived from the engine's version. -/
theorem createTask_ffversion {env : Env} {s : RState} {cfg : AppConfig}
    {t : Task} {pool : List Nat} (hct : createTask env s cfg = .ok (t, pool)) :
    t.process.config.ffversion = createFFConstraint env ∧
    t.config.ffversion = createFFConstraint env := by
  simp only [createTask] at hct
  by_cases h0 : (trimS cfg.id).length = 0
  · rw [if_pos h0] at hct
    cases hct
  · rw [if_neg h0] at hct
    split at hct
    · cases hct
    · rename_i cfg2 heq
      split at hct
      · cases hct
      · rename_i cfg3 ud heq2
        injection hct with h2
        have ht : _ = t := congrArg Prod.fst h2
        constructor
        · rw [← ht]
          exact congrArg (fun p => p.config.ffversion) (setPlayoutPorts_shape _ _).2
        · rw [← ht]
          exact (setPlayoutPorts_shape _ _).1.trans
            ((validateConfig_shape heq2).1.trans (resolveAddresses_shape heq).1)

/-- C9: For every config successfully built into a task, `createTask`
unconditionally overwrites the config's FFVersion with the caret constraint
derived from the engine's current version — the result is independent of
any user-supplied FFVersion, in the persisted catalog entry and in the
working config alike; only on load is a non-empty stored FFVersion kept,
with the default applied exactly when it is empty. -/
theorem ffversion_overwrite_and_load (env : Env) (s : RState) (cfg : AppConfig)
    (t : Task) (pool : List Nat) (hct : createTask env s cfg = .ok (t, pool)) :
    t.process.config.ffversion = createFFConstraint env ∧
    t.config.ffversion = createFFConstraint env ∧
    (∀ c : AppConfig, c.ffversion.length ≠ 0 → loadConfigFFVersion env c = c) ∧
    (∀ c : AppConfig, c.ffversion.length = 0 →
      (loadConfigFFVersion env c).ffversion = "^" ++ loadBaseVersion env) := by
  refine ⟨(createTask_ffversion hct).1, (createTask_ffversion hct).2, ?_, ?_⟩
  · intro c hc
    unfold loadConfigFFVersion
    rw [if_neg hc]
  · intro c hc
    unfold loadConfigFFVersion
    rw [if_pos hc]

/-- Witness for C9 at the minimal config: the built task carries the caret
constraint of the 4.4.1 engine, a stored FFVersion survives load, an empty
one is defaulted. -/
theorem ffversion_overwrite_and_load_witness :
    tX.process.config.ffversion = createFFConstraint envC ∧
    tX.config.ffversion = createFFConstraint envC ∧
    loadConfigFFVersion envC { cfgFor "a" with ffversion := "^5.0.0" } =
      { cfgFor "a" with ffversion := "^5.0.0" } ∧
    (loadConfigFFVersion envC (cfgFor "a")).ffversion = "^" ++ loadBaseVersion envC := by
  have h := ffversion_overwrite_and_load envC s0 (cfgFor "a") tX poolX rfl
  exact ⟨h.1, h.2.1, h.2.2.1 _ (by decide), h.2.2.2 _ (by decide)⟩

/-- A glob error on any registry key makes the ID pass fail. -/
theorem matchIds_none_of_err {env : Env} {pat : String} {l : List (String × Task)}
    (h : ∃ p ∈ l, env.globMatch pat p.1 = none) : matchIds env pat l = none := by
  induction l with
  | nil =>
    obtain ⟨p, hp, _⟩ := h
    cases hp
  | cons q rest ih =>
    obtain ⟨p, hp, he⟩ := h
    rcases List.mem_cons.mp hp with h1 | h1
    · subst h1
      simp [matchIds, he]
    · cases hm : env.globMatch pat q.1 with
      | none => simp [matchIds, hm]
      | some b => simp [matchIds, hm, ih ⟨p, h1, he⟩]

/-- A glob error on any task reference makes the reference pass fail. -/
theorem matchRefs_none_of_err {env : Env} {pat : String} {l : List (String × Task)}
    (h : ∃ p ∈ l, env.globMatch pat p.2.reference = none) :
    matchRefs env pat l = none := by
  induction l with
  | nil =>
    obtain ⟨p, hp, _⟩ := h
    cases hp
  | cons q rest ih =>
    obtain ⟨p, hp, he⟩ := h
    rcases List.mem_cons.mp hp with h1 | h1
    · subst h1
      simp [matchRefs, he]
    · cases hm : env.globMatch pat q.2.reference with
      | none => simp [matchRefs, hm]
      | some b => simp [matchRefs, hm, ih ⟨p, h1, he⟩]

/-- C10: a non-empty pattern on which the glob matcher errors for some
candidate makes `GetProcessIDs` return the empty result rather than an
error or a partial result — indistinguishable at the interface from an
empty registry, which also yields the empty result for any patterns. -/
theorem getProcessIDs_glob_error (env : Env) (s : RState) (idp refp : String) :
    (idp.length ≠ 0 → (∃ p ∈ s.tasks, env.globMatch idp p.1 = none) →
      GetProcessIDs env s idp refp = []) ∧
    (refp.length ≠ 0 → (∃ p ∈ s.tasks, env.globMatch refp p.2.reference = none) →
      GetProcessIDs env s idp refp = []) ∧
    (s.tasks = [] → GetProcessIDs env s idp refp = []) := by
  refine ⟨?_, ?_, ?_⟩
  · intro h1 h2
    have hm := matchIds_none_of_err h2
    simp [GetProcessIDs, h1, hm]
  · intro h1 h2
    have hm := matchRefs_none_of_err h2
    by_cases hid : idp.length = 0
    · simp [GetProcessIDs, hid, h1, hm]
    · cases hmi : matchIds env idp s.tasks with
      | none => simp [GetProcessIDs, hid, h1, hmi]
      | some l => simp [GetProcessIDs, hid, h1, hmi, hm]
  · intro h
    by_cases hid : idp.length = 0 <;> by_cases href : refp.length = 0 <;>
      simp [GetProcessIDs, h, hid, href, matchIds, matchRefs]

/-- Witness for C10: the malformed glob pattern `[` empties the result of
either filter over the three-task registry, matching the empty registry. -/
theorem getProcessIDs_glob_error_witness :
    GetProcessIDs envC s6 "[" "" = [] ∧
    GetProcessIDs envC s6 "a" "[" = [] ∧
    GetProcessIDs envC { s6 with tasks := [] } "a" "" = [] := by
  refine ⟨?_, ?_, ?_⟩
  · exact (getProcessIDs_glob_error envC s6 "[" "").1 (by decide)
      ⟨("a", mkTask "a" "start" "stop" false), by decide, by decide⟩
  · exact (getProcessIDs_glob_error envC s6 "a" "[").2.1 (by decide)
      ⟨("a", mkTask "a" "start" "stop" false), by decide, by decide⟩
  · exact (getProcessIDs_glob_error envC { s6 with tasks := [] } "a" "").2.2 rfl

/-- Input address validation never rewrites the address. -/
theorem validateInputAddress_addr (env : Env) (a bd : String) :
    (validateInputAddress env a bd).1 = a := by
  unfold validateInputAddress
  by_cases h1 : (env.hasScheme a && !env.urlValidate a) = true
  · rw [if_pos h1]
  · rw [if_neg h1]
    by_cases h2 : (!env.ffValidInput a) = true
    · rw [if_pos h2]
    · rw [if_neg h2]

/-- When every disk accepts an input address, the multi-disk fold keeps the
address, reports no file, and counts no failure. -/
theorem validateAddrMulti_input_ok (env : Env) (bds : List String) (a : String)
    (h : ∀ bd, (validateInputAddress env a bd).2 = none) :
    validateAddrMulti (validateInputStep env) bds a = (a, false, 0, none) := by
  induction bds with
  | nil => rfl
  | cons bd rest ih =>
    simp [validateAddrMulti, validateInputStep,
      validateInputAddress_addr env a bd, h bd, ih]

/-- Validation of a single-entry input list whose address every disk
accepts: the trimmed entry is returned. -/
theorem validateConfigInputs_single (env : Env) (bds : List String) (pid : String)
    (i : ConfigIO) (hid : (trimS i.id).length ≠ 0)
    (haddr : (trimS i.address).length ≠ 0)
    (hok : ∀ bd, (validateInputAddress env (trimS i.address) bd).2 = none) :
    validateConfigInputs env bds pid [] [i] =
      .ok [{ i with id := trimS i.id, address := trimS i.address }] := by
  by_cases hbds : bds.length = 0
  · have h1 := hok "/"
    have h2 := validateInputAddress_addr env (trimS i.address) "/"
    simp [validateConfigInputs, listHas, hid, haddr, hbds, h1, h2]
  · have hm := validateAddrMulti_input_ok env bds (trimS i.address) hok
    simp [validateConfigInputs, listHas, hid, haddr, hbds, hm, Ne.symm hbds]

/-- Validation of a single-entry output list against a non-empty disk list:
rejected with the exact error of the source when every chained round fails,
otherwise accepted with the chain's final address and file flag. -/
theorem validateConfigOutputs_single (env : Env) (bds : List String) (pid : String)
    (o : ConfigIO) (hbds : bds.length ≠ 0)
    (hid : (trimS o.id).length ≠ 0) (haddr : (trimS o.address).length ≠ 0) :
    ((validateAddrMulti (validateOutputAddress env) bds (trimS o.address)).2.2.1 =
        bds.length →
      validateConfigOutputs env bds pid [] [o] =
        .error ("the address for output '#" ++ pid ++ ":" ++ trimS o.id ++
          "' is invalid")) ∧
    ((validateAddrMulti (validateOutputAddress env) bds (trimS o.address)).2.2.1 ≠
        bds.length →
      validateConfigOutputs env bds pid [] [o] =
        .ok ([{ o with
            id := trimS o.id,
            address := (validateAddrMulti (validateOutputAddress env) bds
              (trimS o.address)).1 }],
          (validateAddrMulti (validateOutputAddress env) bds (trimS o.address)).2.1)) := by
  constructor
  · intro hfail
    simp [validateConfigOutputs, listHas, hid, haddr, hbds, hfail]
  · intro hok2
    simp [validateConfigOutputs, listHas, hid, haddr, hbds, hok2]

/-- Pushing a fresh trimmed ID onto the seen set keeps every later entry of
a duplicate-free list unseen. -/
theorem listHas_push (io : ConfigIO) (rest : List ConfigIO) (seen : List String)
    (h3 : ((io :: rest).map (fun x => trimS x.id)).Nodup)
    (h4 : ∀ x ∈ io :: rest, listHas seen (trimS x.id) = false) :
    ∀ x ∈ rest, listHas (trimS io.id :: seen) (trimS x.id) = false := by
  intro x hx
  have hni : trimS io.id ∉ rest.map (fun y => trimS y.id) := by
    rw [List.map_cons] at h3
    exact (List.nodup_cons.mp h3).1
  have hne : trimS io.id ≠ trimS x.id := by
    intro hEq
    exact hni (hEq ▸ List.mem_map_of_mem (fun y => trimS y.id) hx)
  simp [listHas, hne, h4 x (List.mem_cons_of_mem io hx)]

/-- The tail of a duplicate-free mapped cons is duplicate-free. -/
theorem nodupMapTail (f : ConfigIO → String) (io : ConfigIO) (rest : List ConfigIO)
    (h : ((io :: rest).map f).Nodup) : (rest.map f).Nodup := by
  rw [List.map_cons] at h
  exact (List.nodup_cons.mp h).2

/-- Multi-disk input validation of a whole IO list, accepting case: when no
entry fails on every disk, every entry is returned with trimmed ID and the
final address of its chained validation. -/
theorem validateConfigInputs_accept (env : Env) (bds : List String) (pid : String)
    (hbds : bds.length ≠ 0) :
    ∀ (ios : List ConfigIO) (seen : List String),
      (∀ io ∈ ios, (trimS io.id).length ≠ 0) →
      (∀ io ∈ ios, (trimS io.address).length ≠ 0) →
      ((ios.map (fun io => trimS io.id)).Nodup) →
      (∀ io ∈ ios, listHas seen (trimS io.id) = false) →
      (∀ io ∈ ios,
        (validateAddrMulti (validateInputStep env) bds (trimS io.address)).2.2.1 ≠
          bds.length) →
      validateConfigInputs env bds pid seen ios =
        .ok (ios.map (fun io => { io with
          id := trimS io.id,
          address := (validateAddrMulti (validateInputStep env) bds
            (trimS io.address)).1 })) := by
  intro ios
  induction ios with
  | nil => intro seen _ _ _ _ _; rfl
  | cons io rest ih =>
    intro seen h1 h2 h3 h4 hok
    have hid := h1 io (by simp)
    have haddr := h2 io (by simp)
    have hseen := h4 io (by simp)
    have hchain := hok io (by simp)
    have ihr := ih (trimS io.id :: seen)
      (fun x hx => h1 x (List.mem_cons_of_mem io hx))
      (fun x hx => h2 x (List.mem_cons_of_mem io hx))
      (nodupMapTail _ io rest h3) (listHas_push io rest seen h3 h4)
      (fun x hx => hok x (List.mem_cons_of_mem io hx))
    simp [validateConfigInputs, hid, haddr, hbds, hseen, hchain, ihr]

/-- Multi-disk input validation of a whole IO list, rejecting case: when
some entry fails on every disk, the list is rejected with the source's
error for such an entry. -/
theorem validateConfigInputs_reject (env : Env) (bds : List String) (pid : String)
    (hbds : bds.length ≠ 0) :
    ∀ (ios : List ConfigIO) (seen : List String),
      (∀ io ∈ ios, (trimS io.id).length ≠ 0) →
      (∀ io ∈ ios, (trimS io.address).length ≠ 0) →
      ((ios.map (fun io => trimS io.id)).Nodup) →
      (∀ io ∈ ios, listHas seen (trimS io.id) = false) →
      (∃ io ∈ ios,
        (validateAddrMulti (validateInputStep env) bds (trimS io.address)).2.2.1 =
          bds.length) →
      ∃ io ∈ ios, validateConfigInputs env bds pid seen ios =
        .error ("the address for input '#" ++ pid ++ ":" ++ trimS io.id ++ "' (" ++
          (validateAddrMulti (validateInputStep env) bds (trimS io.address)).1 ++
          ") is invalid") := by
  intro ios
  induction ios with
  | nil => intro seen _ _ _ _ hex; exact absurd hex (by simp)
  | cons io rest ih =>
    intro seen h1 h2 h3 h4 hex
    have hid := h1 io (by simp)
    have haddr := h2 io (by simp)
    have hseen := h4 io (by simp)
    by_cases hc :
      (validateAddrMulti (validateInputStep env) bds (trimS io.address)).2.2.1 =
        bds.length
    · refine ⟨io, by simp, ?_⟩
      simp [validateConfigInputs, hid, haddr, hbds, hseen, hc]
    · have hex' : ∃ x ∈ rest,
          (validateAddrMulti (validateInputStep env) bds (trimS x.address)).2.2.1 =
            bds.length := by
        obtain ⟨x, hx, hxf⟩ := hex
        rcases List.mem_cons.mp hx with hEq | hmem
        · subst hEq; exact absurd hxf hc
        · exact ⟨x, hmem, hxf⟩
      obtain ⟨y, hy, hyf⟩ := ih (trimS io.id :: seen)
        (fun x hx => h1 x (List.mem_cons_of_mem io hx))
        (fun x hx => h2 x (List.mem_cons_of_mem io hx))
        (nodupMapTail _ io rest h3) (listHas_push io rest seen h3 h4) hex'
      refine ⟨y, List.mem_cons_of_mem io hy, ?_⟩
      simp [validateConfigInputs, hid, haddr, hbds, hseen, hc, hyf]

/-- Multi-disk output validation of a whole IO list, accepting case: every
entry is returned with trimmed ID and the final address of its chained
validation, and the file flag is the disjunction of the chains' flags. -/
theorem validateConfigOutputs_accept (env : Env) (bds : List String) (pid : String)
    (hbds : bds.length ≠ 0) :
    ∀ (ios : List ConfigIO) (seen : List String),
      (∀ io ∈ ios, (trimS io.id).length ≠ 0) →
      (∀ io ∈ ios, (trimS io.address).length ≠ 0) →
      ((ios.map (fun io => trimS io.id)).Nodup) →
      (∀ io ∈ ios, listHas seen (trimS io.id) = false) →
      (∀ io ∈ ios,
        (validateAddrMulti (validateOutputAddress env) bds (trimS io.address)).2.2.1 ≠
          bds.length) →
      validateConfigOutputs env bds pid seen ios =
        .ok (ios.map (fun io => { io with
            id := trimS io.id,
            address := (validateAddrMulti (validateOutputAddress env) bds
              (trimS io.address)).1 }),
          ios.any (fun io =>
            (validateAddrMulti (validateOutputAddress env) bds
              (trimS io.address)).2.1)) := by
  intro ios
  induction ios with
  | nil => intro seen _ _ _ _ _; rfl
  | cons io rest ih =>
    intro seen h1 h2 h3 h4 hok
    have hid := h1 io (by simp)
    have haddr := h2 io (by simp)
    have hseen := h4 io (by simp)
    have hchain := hok io (by simp)
    have ihr := ih (trimS io.id :: seen)
      (fun x hx => h1 x (List.mem_cons_of_mem io hx))
      (fun x hx => h2 x (List.mem_cons_of_mem io hx))
      (nodupMapTail _ io rest h3) (listHas_push io rest seen h3 h4)
      (fun x hx => hok x (List.mem_cons_of_mem io hx))
    simp [validateConfigOutputs, hid, haddr, hbds, hseen, hchain, ihr]

/-- Multi-disk output validation of a whole IO list, rejecting case: when
some entry fails on every disk, the list is rejected with the source's
error for such an entry. -/
theorem validateConfigOutputs_reject (env : Env) (bds : List String) (pid : String)
    (hbds : bds.length ≠ 0) :
    ∀ (ios : List ConfigIO) (seen : List String),
      (∀ io ∈ ios, (trimS io.id).length ≠ 0) →
      (∀ io ∈ ios, (trimS io.address).length ≠ 0) →
      ((ios.map (fun io => trimS io.id)).Nodup) →
      (∀ io ∈ ios, listHas seen (trimS io.id) = false) →
      (∃ io ∈ ios,
        (validateAddrMulti (validateOutputAddress env) bds (trimS io.address)).2.2.1 =
          bds.length) →
      ∃ io ∈ ios, validateConfigOutputs env bds pid seen ios =
        .error ("the address for output '#" ++ pid ++ ":" ++ trimS io.id ++
          "' is invalid") := by
  intro ios
  induction ios with
  | nil => intro seen _ _ _ _ hex; exact absurd hex (by simp)
  | cons io rest ih =>
    intro seen h1 h2 h3 h4 hex
    have hid := h1 io (by simp)
    have haddr := h2 io (by simp)
    have hseen := h4 io (by simp)
    by_cases hc :
      (validateAddrMulti (validateOutputAddress env) bds (trimS io.address)).2.2.1 =
        bds.length
    · refine ⟨io, by simp, ?_⟩
      simp [validateConfigOutputs, hid, haddr, hbds, hseen, hc]
    · have hex' : ∃ x ∈ rest,
          (validateAddrMulti (validateOutputAddress env) bds (trimS x.address)).2.2.1 =
            bds.length := by
        obtain ⟨x, hx, hxf⟩ := hex
        rcases List.mem_cons.mp hx with hEq | hmem
        · subst hEq; exact absurd hxf hc
        · exact ⟨x, hmem, hxf⟩
      obtain ⟨y, hy, hyf⟩ := ih (trimS io.id :: seen)
        (fun x hx => h1 x (List.mem_cons_of_mem io hx))
        (fun x hx => h2 x (List.mem_cons_of_mem io hx))
        (nodupMapTail _ io rest h3) (listHas_push io rest seen h3 h4) hex'
      refine ⟨y, List.mem_cons_of_mem io hy, ?_⟩
      simp [validateConfigOutputs, hid, haddr, hbds, hseen, hc, hyf]

/-- No-disk input validation of a whole IO list, accepting case: every
entry is validated once against `/` and returned with trimmed ID. -/
theorem validateConfigInputs_nodisk_accept (env : Env) (pid : String) :
    ∀ (ios : List ConfigIO) (seen : List String),
      (∀ io ∈ ios, (trimS io.id).length ≠ 0) →
      (∀ io ∈ ios, (trimS io.address).length ≠ 0) →
      ((ios.map (fun io => trimS io.id)).Nodup) →
      (∀ io ∈ ios, listHas seen (trimS io.id) = false) →
      (∀ io ∈ ios, (validateInputAddress env (trimS io.address) "/").2 = none) →
      validateConfigInputs env [] pid seen ios =
        .ok (ios.map (fun io => { io with
          id := trimS io.id,
          address := (validateInputAddress env (trimS io.address) "/").1 })) := by
  intro ios
  induction ios with
  | nil => intro seen _ _ _ _ _; rfl
  | cons io rest ih =>
    intro seen h1 h2 h3 h4 hok
    have hid := h1 io (by simp)
    have haddr := h2 io (by simp)
    have hseen := h4 io (by simp)
    have hroot := hok io (by simp)
    have ihr := ih (trimS io.id :: seen)
      (fun x hx => h1 x (List.mem_cons_of_mem io hx))
      (fun x hx => h2 x (List.mem_cons_of_mem io hx))
      (nodupMapTail _ io rest h3) (listHas_push io rest seen h3 h4)
      (fun x hx => hok x (List.mem_cons_of_mem io hx))
    simp [validateConfigInputs, hid, haddr, hseen, hroot, ihr]

/-- No-disk input validation of a whole IO list, rejecting case: an entry
whose single validation against `/` fails makes the list rejected with the
source's error for such an entry. -/
theorem validateConfigInputs_nodisk_reject (env : Env) (pid : String) :
    ∀ (ios : List ConfigIO) (seen : List String),
      (∀ io ∈ ios, (trimS io.id).length ≠ 0) →
      (∀ io ∈ ios, (trimS io.address).length ≠ 0) →
      ((ios.map (fun io => trimS io.id)).Nodup) →
      (∀ io ∈ ios, listHas seen (trimS io.id) = false) →
      (∃ io ∈ ios, (validateInputAddress env (trimS io.address) "/").2 ≠ none) →
      ∃ io ∈ ios, validateConfigInputs env [] pid seen ios =
        .error ("the address for input '#" ++ pid ++ ":" ++ trimS io.id ++ "' (" ++
          (validateInputAddress env (trimS io.address) "/").1 ++ ") is invalid") := by
  intro ios
  induction ios with
  | nil => intro seen _ _ _ _ hex; exact absurd hex (by simp)
  | cons io rest ih =>
    intro seen h1 h2 h3 h4 hex
    have hid := h1 io (by simp)
    have haddr := h2 io (by simp)
    have hseen := h4 io (by simp)
    by_cases hc : (validateInputAddress env (trimS io.address) "/").2 = none
    · have hex' : ∃ x ∈ rest,
          (validateInputAddress env (trimS x.address) "/").2 ≠ none := by
        obtain ⟨x, hx, hxf⟩ := hex
        rcases List.mem_cons.mp hx with hEq | hmem
        · subst hEq; exact absurd hc hxf
        · exact ⟨x, hmem, hxf⟩
      obtain ⟨y, hy, hyf⟩ := ih (trimS io.id :: seen)
        (fun x hx => h1 x (List.mem_cons_of_mem io hx))
        (fun x hx => h2 x (List.mem_cons_of_mem io hx))
        (nodupMapTail _ io rest h3) (listHas_push io rest seen h3 h4) hex'
      refine ⟨y, List.mem_cons_of_mem io hy, ?_⟩
      simp [validateConfigInputs, hid, haddr, hseen, hc, hyf]
    · obtain ⟨v, hv⟩ := Option.ne_none_iff_exists'.mp hc
      refine ⟨io, by simp, ?_⟩
      simp [validateConfigInputs, hid, haddr, hseen, hv]

/-- No-disk output validation of a whole IO list, accepting case: every
entry is validated once against `/`, with the file flag the disjunction of
the single validations' flags. -/
theorem validateConfigOutputs_nodisk_accept (env : Env) (pid : String) :
    ∀ (ios : List ConfigIO) (seen : List String),
      (∀ io ∈ ios, (trimS io.id).length ≠ 0) →
      (∀ io ∈ ios, (trimS io.address).length ≠ 0) →
      ((ios.map (fun io => trimS io.id)).Nodup) →
      (∀ io ∈ ios, listHas seen (trimS io.id) = false) →
      (∀ io ∈ ios, (validateOutputAddress env (trimS io.address) "/").2.2 = none) →
      validateConfigOutputs env [] pid seen ios =
        .ok (ios.map (fun io => { io with
            id := trimS io.id,
            address := (validateOutputAddress env (trimS io.address) "/").1 }),
          ios.any (fun io =>
            (validateOutputAddress env (trimS io.address) "/").2.1)) := by
  intro ios
  induction ios with
  | nil => intro seen _ _ _ _ _; rfl
  | cons io rest ih =>
    intro seen h1 h2 h3 h4 hok
    have hid := h1 io (by simp)
    have haddr := h2 io (by simp)
    have hseen := h4 io (by simp)
    have hroot := hok io (by simp)
    have ihr := ih (trimS io.id :: seen)
      (fun x hx => h1 x (List.mem_cons_of_mem io hx))
      (fun x hx => h2 x (List.mem_cons_of_mem io hx))
      (nodupMapTail _ io rest h3) (listHas_push io rest seen h3 h4)
      (fun x hx => hok x (List.mem_cons_of_mem io hx))
    simp [validateConfigOutputs, hid, haddr, hseen, hroot, ihr]

/-- No-disk output validation of a whole IO list, rejecting case. -/
theorem validateConfigOutputs_nodisk_reject (env : Env) (pid : String) :
    ∀ (ios : List ConfigIO) (seen : List String),
      (∀ io ∈ ios, (trimS io.id).length ≠ 0) →
      (∀ io ∈ ios, (trimS io.address).length ≠ 0) →
      ((ios.map (fun io => trimS io.id)).Nodup) →
      (∀ io ∈ ios, listHas seen (trimS io.id) = false) →
      (∃ io ∈ ios, (validateOutputAddress env (trimS io.address) "/").2.2 ≠ none) →
      ∃ io ∈ ios, validateConfigOutputs env [] pid seen ios =
        .error ("the address for output '#" ++ pid ++ ":" ++ trimS io.id ++
          "' is invalid") := by
  intro ios
  induction ios with
  | nil => intro seen _ _ _ _ hex; exact absurd hex (by simp)
  | cons io rest ih =>
    intro seen h1 h2 h3 h4 hex
    have hid := h1 io (by simp)
    have haddr := h2 io (by simp)
    have hseen := h4 io (by simp)
    by_cases hc : (validateOutputAddress env (trimS io.address) "/").2.2 = none
    · have hex' : ∃ x ∈ rest,
          (validateOutputAddress env (trimS x.address) "/").2.2 ≠ none := by
        obtain ⟨x, hx, hxf⟩ := hex
        rcases List.mem_cons.mp hx with hEq | hmem
        · subst hEq; exact absurd hc hxf
        · exact ⟨x, hmem, hxf⟩
      obtain ⟨y, hy, hyf⟩ := ih (trimS io.id :: seen)
        (fun x hx => h1 x (List.mem_cons_of_mem io hx))
        (fun x hx => h2 x (List.mem_cons_of_mem io hx))
        (nodupMapTail _ io rest h3) (listHas_push io rest seen h3 h4) hex'
      refine ⟨y, List.mem_cons_of_mem io hy, ?_⟩
      simp [validateConfigOutputs, hid, haddr, hseen, hc, hyf]
    · obtain ⟨v, hv⟩ := Option.ne_none_iff_exists'.mp hc
      refine ⟨io, by simp, ?_⟩
      simp [validateConfigOutputs, hid, haddr, hseen, hv]

/-- Counterexample for C5 as stated: with disks `/a` and `/b`, the output
path `/a/x.ts` is accepted — the accepting validation against `/a` returns
the normalised `file:/a/x.ts` — yet the config ends up with `/a/x.ts`,
because the second disk's failing validation rewrote the address again. The
stored address is not the accepted form produced by the accepting
validation. -/
theorem validateConfig_threaded_address_counterexample :
    validateOutputAddress envC "/a/x.ts" "/a" = ("file:/a/x.ts", true, none) ∧
    (validateConfig envC ["/a", "/b"] cfg5).toOption.map
      (fun r => (r.1.output.map (fun x => x.address), r.2)) =
      some (["/a/x.ts"], true) ∧
    ("/a/x.ts" : String) ≠ "file:/a/x.ts" := by
  refine ⟨by decide, by decide, by decide⟩

/-- C5 (amended): for every config whose IO entries pass the structural
checks (nonempty trimmed IDs and addresses, no duplicate IDs), with disks
configured each input and output address is validated against every disk's
basedir in order, every round receiving the address value the previous
round returned (also on failure); an IO is accepted iff not every round
fails, and the address kept in the config is the final round's value —
which on a later rejection may differ from the accepting round's normalised
form; if some IO fails every round, `validateConfig` fails the whole config
with the source's error for such an entry. With no disk filesystems, `/` is
the basedir of the single validation of each address. -/
theorem validateConfig_multidisk_threaded (env : Env) (bds : List String)
    (cfg : AppConfig)
    (hiid : ∀ io ∈ cfg.input, (trimS io.id).length ≠ 0)
    (hia : ∀ io ∈ cfg.input, (trimS io.address).length ≠ 0)
    (hinodup : (cfg.input.map (fun io => trimS io.id)).Nodup)
    (hoid : ∀ io ∈ cfg.output, (trimS io.id).length ≠ 0)
    (hoa : ∀ io ∈ cfg.output, (trimS io.address).length ≠ 0)
    (honodup : (cfg.output.map (fun io => trimS io.id)).Nodup)
    (hin0 : cfg.input ≠ []) (hout0 : cfg.output ≠ []) :
    (bds.length ≠ 0 →
      ((∃ io ∈ cfg.input,
          (validateAddrMulti (validateInputStep env) bds (trimS io.address)).2.2.1 =
            bds.length) →
        ∃ io ∈ cfg.input, validateConfig env bds cfg =
          .error ("the address for input '#" ++ cfg.id ++ ":" ++ trimS io.id ++
            "' (" ++
            (validateAddrMulti (validateInputStep env) bds (trimS io.address)).1 ++
            ") is invalid")) ∧
      ((∀ io ∈ cfg.input,
          (validateAddrMulti (validateInputStep env) bds (trimS io.address)).2.2.1 ≠
            bds.length) →
        ((∃ io ∈ cfg.output,
            (validateAddrMulti (validateOutputAddress env) bds
              (trimS io.address)).2.2.1 = bds.length) →
          ∃ io ∈ cfg.output, validateConfig env bds cfg =
            .error ("the address for output '#" ++ cfg.id ++ ":" ++ trimS io.id ++
              "' is invalid")) ∧
        ((∀ io ∈ cfg.output,
            (validateAddrMulti (validateOutputAddress env) bds
              (trimS io.address)).2.2.1 ≠ bds.length) →
          validateConfig env bds cfg =
            .ok ({ cfg with
                input := cfg.input.map (fun io => { io with
                  id := trimS io.id,
                  address := (validateAddrMulti (validateInputStep env) bds
                    (trimS io.address)).1 }),
                output := cfg.output.map (fun io => { io with
                  id := trimS io.id,
                  address := (validateAddrMulti (validateOutputAddress env) bds
                    (trimS io.address)).1 }) },
              cfg.output.any (fun io =>
                (validateAddrMulti (validateOutputAddress env) bds
                  (trimS io.address)).2.1))))) ∧
    (((∃ io ∈ cfg.input, (validateInputAddress env (trimS io.address) "/").2 ≠ none) →
        ∃ io ∈ cfg.input, validateConfig env [] cfg =
          .error ("the address for input '#" ++ cfg.id ++ ":" ++ trimS io.id ++
            "' (" ++ (validateInputAddress env (trimS io.address) "/").1 ++
            ") is invalid")) ∧
      ((∀ io ∈ cfg.input, (validateInputAddress env (trimS io.address) "/").2 = none) →
        ((∃ io ∈ cfg.output,
            (validateOutputAddress env (trimS io.address) "/").2.2 ≠ none) →
          ∃ io ∈ cfg.output, validateConfig env [] cfg =
            .error ("the address for output '#" ++ cfg.id ++ ":" ++ trimS io.id ++
              "' is invalid")) ∧
        ((∀ io ∈ cfg.output,
            (validateOutputAddress env (trimS io.address) "/").2.2 = none) →
          validateConfig env [] cfg =
            .ok ({ cfg with
                input := cfg.input.map (fun io => { io with
                  id := trimS io.id,
                  address := (validateInputAddress env (trimS io.address) "/").1 }),
                output := cfg.output.map (fun io => { io with
                  id := trimS io.id,
                  address := (validateOutputAddress env (trimS io.address) "/").1 }) },
              cfg.output.any (fun io =>
                (validateOutputAddress env (trimS io.address) "/").2.1))))) := by
  have hlen : cfg.input.length ≠ 0 := fun h => hin0 (List.length_eq_zero.mp h)
  have hlout : cfg.output.length ≠ 0 := fun h => hout0 (List.length_eq_zero.mp h)
  constructor
  · intro hbds
    constructor
    · intro hex
      obtain ⟨io, hio, he⟩ := validateConfigInputs_reject env bds cfg.id hbds
        cfg.input [] hiid hia hinodup (fun _ _ => rfl) hex
      exact ⟨io, hio, by simp [validateConfig, hlen, he]⟩
    · intro hinall
      have hins := validateConfigInputs_accept env bds cfg.id hbds
        cfg.input [] hiid hia hinodup (fun _ _ => rfl) hinall
      constructor
      · intro hex
        obtain ⟨io, hio, he⟩ := validateConfigOutputs_reject env bds cfg.id hbds
          cfg.output [] hoid hoa honodup (fun _ _ => rfl) hex
        exact ⟨io, hio, by simp [validateConfig, hlen, hins, hlout, he]⟩
      · intro houtall
        have houts := validateConfigOutputs_accept env bds cfg.id hbds
          cfg.output [] hoid hoa honodup (fun _ _ => rfl) houtall
        simp [validateConfig, hlen, hins, hlout, houts]
  · constructor
    · intro hex
      obtain ⟨io, hio, he⟩ := validateConfigInputs_nodisk_reject env cfg.id
        cfg.input [] hiid hia hinodup (fun _ _ => rfl) hex
      exact ⟨io, hio, by simp [validateConfig, hlen, he]⟩
    · intro hinall
      have hins := validateConfigInputs_nodisk_accept env cfg.id
        cfg.input [] hiid hia hinodup (fun _ _ => rfl) hinall
      constructor
      · intro hex
        obtain ⟨io, hio, he⟩ := validateConfigOutputs_nodisk_reject env cfg.id
          cfg.output [] hoid hoa honodup (fun _ _ => rfl) hex
        exact ⟨io, hio, by simp [validateConfig, hlen, hins, hlout, he]⟩
      · intro houtall
        have houts := validateConfigOutputs_nodisk_accept env cfg.id
          cfg.output [] hoid hoa honodup (fun _ _ => rfl) houtall
        simp [validateConfig, hlen, hins, hlout, houts]

/-- Witness for the amended C5: a two-input two-output config accepted over
two disks with the threaded final addresses (and trimmed IDs), the
all-disks-fail rejection of an output and of an input with the source's
errors, and the no-disk `/` validation. -/
theorem validateConfig_multidisk_threaded_witness :
    validateConfig envC ["/a", "/b"] cfg5d =
      .ok ({ cfg5d with
          input := [{ id := "i", address := "x", options := [], cleanup := [] },
            { id := "j", address := "y", options := [], cleanup := [] }],
          output := [{ id := "o", address := "/a/x.ts", options := [], cleanup := [] },
            { id := "q", address := "udp://h:1", options := [], cleanup := [] }] },
        true) ∧
    validateConfig envC ["/a", "/b"] cfg5b =
      .error "the address for output '#p:o' is invalid" ∧
    validateConfig envR ["/a", "/b"] cfg5c =
      .error "the address for input '#p:i' (bad) is invalid" ∧
    validateConfig envC [] cfg5 =
      .ok ({ cfg5 with
          input := [{ id := "i", address := "x", options := [], cleanup := [] }],
          output := [{
            id := "o",
            address := "file:/a/x.ts",
            options := [],
            cleanup := [] }] }, true) := by
  refine ⟨?_, ?_, ?_, ?_⟩
  · exact (((validateConfig_multidisk_threaded envC ["/a", "/b"] cfg5d
      (by decide) (by decide) (by decide) (by decide) (by decide) (by decide)
      (by decide) (by decide)).1 (by decide)).2 (by decide)).2 (by decide)
  · obtain ⟨io, hio, he⟩ := (((validateConfig_multidisk_threaded envC ["/a", "/b"]
      cfg5b (by decide) (by decide) (by decide) (by decide) (by decide) (by decide)
      (by decide) (by decide)).1 (by decide)).2 (by decide)).1
      ⟨{ id := "o", address := "/c/x.ts", options := [], cleanup := [] },
        List.mem_cons_self _ _, by decide⟩
    simp only [cfg5b, List.mem_singleton] at hio
    subst hio
    exact he
  · obtain ⟨io, hio, he⟩ := ((validateConfig_multidisk_threaded envR ["/a", "/b"]
      cfg5c (by decide) (by decide) (by decide) (by decide) (by decide) (by decide)
      (by decide) (by decide)).1 (by decide)).1
      ⟨{ id := "i", address := "bad", options := [], cleanup := [] },
        List.mem_cons_self _ _, by decide⟩
    simp only [cfg5c, cfg5, List.mem_singleton] at hio
    subst hio
    exact he
  · exact ((validateConfig_multidisk_threaded envC [] cfg5
      (by decide) (by decide) (by decide) (by decide) (by decide) (by decide)
      (by decide) (by decide)).2.2 (by decide)).2 (by decide)

/-- Non-tee output address with an accepted URL scheme: the
`file:`-stripped address is returned unchanged and is not a file. -/
theorem validateOutputAddr_scheme_ok (env : Env) (n : Nat) {a bd : String}
    (hne : (sContains '|' a || sHasPfx "[" a) = false)
    (hs : env.hasScheme (sDropPfx "file:" a) = true)
    (hv : env.urlValidate (sDropPfx "file:" a) = true)
    (hf : env.ffValidOutput (sDropPfx "file:" a) = true) :
    validateOutputAddr env (Nat.succ n) a bd = (sDropPfx "file:" a, false, none) := by
  simp [validateOutputAddr, hne, hs, hv, hf]

/-- Non-tee output address that is a plain path under the basedir: the
normalised `file:` address is returned and flagged as a file. -/
theorem validateOutputAddr_file_ok (env : Env) (n : Nat) {a bd a2 : String}
    (hne : (sContains '|' a || sHasPfx "[" a) = false)
    (hs : env.hasScheme (sDropPfx "file:" a) = false)
    (hdash : (sDropPfx "file:" a == "-") = false)
    (habs : env.absPath (sDropPfx "file:" a) = some a2)
    (hdev : sHasPfx "/dev/" a2 = false)
    (hbase : sHasPfx bd a2 = true)
    (hf : env.ffValidOutput ("file:" ++ a2) = true) :
    validateOutputAddr env (Nat.succ n) a bd = ("file:" ++ a2, true, none) := by
  simp [validateOutputAddr, hne, hs, hdash, habs, hdev, hbase, hf]

/-- One accepted tee element prepends its bracketed options to the
validated remainder and accumulates the file flag. -/
theorem validateTeeParts_cons_ok
    (f : String → String → String × Bool × Option String) (bd a : String)
    (rest : List String) {va : String} {fl : Bool}
    (hr : f (⟨(teeOpts a.data).2⟩ : String) bd = (va, fl, none))
    {l : List String} {fl2 : Bool}
    (hrest : validateTeeParts f bd rest = .ok (l, fl2)) :
    validateTeeParts f bd (a :: rest) =
      .ok (((⟨(teeOpts a.data).1⟩ : String) ++ va) :: l, fl || fl2) := by
  simp [validateTeeParts, hr, hrest]

/-- C8: Validating the tee output address
`[f=mpegts]udp://h:1|[onfail=ignore]/srv/basedir/x.ts` against basedir
`/srv/basedir` splits on `|`, strips each element's leading bracketed
options group, validates the remainder recursively and re-prepends the
options, returning
`[f=mpegts]udp://h:1|[onfail=ignore]file:/srv/basedir/x.ts` and reporting a
file — so `validateConfig` reports `usesDisk = true` for a config carrying
this output. The hypotheses pin down the external collaborators on the
concrete addresses involved. -/
theorem tee_output_validation_example (env : Env)
    (h1 : env.hasScheme "udp://h:1" = true)
    (h2 : env.urlValidate "udp://h:1" = true)
    (h3 : env.ffValidOutput "udp://h:1" = true)
    (h4 : env.hasScheme "/srv/basedir/x.ts" = false)
    (h5 : env.absPath "/srv/basedir/x.ts" = some "/srv/basedir/x.ts")
    (h6 : env.ffValidOutput "file:/srv/basedir/x.ts" = true)
    (h7 : env.hasScheme "x" = false)
    (h8 : env.ffValidInput "x" = true) :
    validateOutputAddress env
        "[f=mpegts]udp://h:1|[onfail=ignore]/srv/basedir/x.ts" "/srv/basedir" =
      ("[f=mpegts]udp://h:1|[onfail=ignore]file:/srv/basedir/x.ts", true, none) ∧
    (validateConfig env ["/srv/basedir"] cfg8).toOption.map (fun r => r.2) =
      some true := by
  have hp1 : validateOutputAddr env 52
      (⟨(teeOpts ("[f=mpegts]udp://h:1" : String).data).2⟩ : String) "/srv/basedir" =
      ("udp://h:1", false, none) :=
    validateOutputAddr_scheme_ok env 51 (by decide) h1 h2 h3
  have hp2 : validateOutputAddr env 52
      (⟨(teeOpts ("[onfail=ignore]/srv/basedir/x.ts" : String).data).2⟩ : String)
      "/srv/basedir" = ("file:/srv/basedir/x.ts", true, none) :=
    validateOutputAddr_file_ok env 51 (by decide) h4 (by decide) h5 (by decide)
      (by decide) h6
  have hrest0 : validateTeeParts (validateOutputAddr env 52) "/srv/basedir" [] =
      .ok ([], false) := rfl
  have hTee2 := validateTeeParts_cons_ok (validateOutputAddr env 52) "/srv/basedir"
    "[onfail=ignore]/srv/basedir/x.ts" [] hp2 hrest0
  have hTee := validateTeeParts_cons_ok (validateOutputAddr env 52) "/srv/basedir"
    "[f=mpegts]udp://h:1" ["[onfail=ignore]/srv/basedir/x.ts"] hp1 hTee2
  have hmain : validateOutputAddress env
      "[f=mpegts]udp://h:1|[onfail=ignore]/srv/basedir/x.ts" "/srv/basedir" =
      ("[f=mpegts]udp://h:1|[onfail=ignore]file:/srv/basedir/x.ts", true, none) := by
    show validateOutputAddr env
      (("[f=mpegts]udp://h:1|[onfail=ignore]/srv/basedir/x.ts" : String).length + 1)
      "[f=mpegts]udp://h:1|[onfail=ignore]/srv/basedir/x.ts" "/srv/basedir" = _
    rw [show ("[f=mpegts]udp://h:1|[onfail=ignore]/srv/basedir/x.ts" :
      String).length + 1 = Nat.succ 52 from rfl]
    rw [validateOutputAddr]
    rw [if_pos (show (sContains '|'
      "[f=mpegts]udp://h:1|[onfail=ignore]/srv/basedir/x.ts" || sHasPfx "["
      "[f=mpegts]udp://h:1|[onfail=ignore]/srv/basedir/x.ts") = true by decide)]
    rw [show sSplit '|' "[f=mpegts]udp://h:1|[onfail=ignore]/srv/basedir/x.ts" =
      ["[f=mpegts]udp://h:1", "[onfail=ignore]/srv/basedir/x.ts"] from rfl]
    rw [hTee]
    rfl
  refine ⟨hmain, ?_⟩
  have hinok : ∀ bd, (validateInputAddress env (trimS io8in.address) bd).2 = none := by
    intro bd
    show (validateInputAddress env "x" bd).2 = none
    simp [validateInputAddress, h7, h8]
  have hins := validateConfigInputs_single env ["/srv/basedir"] "p" io8in
    (by decide) (by decide) hinok
  have hm : validateAddrMulti (validateOutputAddress env) ["/srv/basedir"]
      "[f=mpegts]udp://h:1|[onfail=ignore]/srv/basedir/x.ts" =
      ("[f=mpegts]udp://h:1|[onfail=ignore]file:/srv/basedir/x.ts", true, 0, none) := by
    simp [validateAddrMulti, hmain]
  have houts := (validateConfigOutputs_single env ["/srv/basedir"] "p" io8out
    (by decide) (by decide) (by decide)).2
    (by
      show (validateAddrMulti (validateOutputAddress env) ["/srv/basedir"]
        "[f=mpegts]udp://h:1|[onfail=ignore]/srv/basedir/x.ts").2.2.1 ≠
        (["/srv/basedir"] : List String).length
      rw [hm]
      decide)
  have hfl : (validateAddrMulti (validateOutputAddress env) ["/srv/basedir"]
      (trimS io8out.address)).2.1 = true := by
    show (validateAddrMulti (validateOutputAddress env) ["/srv/basedir"]
      "[f=mpegts]udp://h:1|[onfail=ignore]/srv/basedir/x.ts").2.1 = true
    rw [hm]
  simp only [validateConfig, cfg8]
  simp [hins, houts, hfl]
  exact ⟨_, rfl⟩

/-- Witness for C8: the concrete environment realises every hypothesis on
the collaborators. -/
theorem tee_output_validation_example_witness :
    validateOutputAddress envC
        "[f=mpegts]udp://h:1|[onfail=ignore]/srv/basedir/x.ts" "/srv/basedir" =
      ("[f=mpegts]udp://h:1|[onfail=ignore]file:/srv/basedir/x.ts", true, none) ∧
    (validateConfig envC ["/srv/basedir"] cfg8).toOption.map (fun r => r.2) =
      some true := by
  exact tee_output_validation_example envC (by decide) (by decide) (by decide)
    (by decide) (by decide) (by decide) (by decide) (by decide)

end Restream
